import Mathlib

/-!
Verification of the LookML lineage resolution pipeline
(`view_upstream.py` and `looker_template_language.py`).

String-processing functions of the source are embedded over explicit
character lists so that every definition is executable and reduces in the
kernel.  Python `str.lower`, `str.split`, `re.sub` with a literal pattern,
`str.startswith` and the substring test of `in` are embedded by the
corresponding character-list recursions below; only the ASCII fragment of
the Python semantics is modelled (all string literals appearing in the
source are ASCII).
-/

/-- Maximal-munch test: if `pat` is a prefix of `cs`, return the remainder. -/
def matchPfx : List Char → List Char → Option (List Char)
  | [], cs => some cs
  | _ :: _, [] => none
  | p :: ps, c :: cs => if c = p then matchPfx ps cs else none

/-- Substring test, the Python `pat in s` semantics on strings. -/
def containsSubAux (pat : List Char) : List Char → Bool
  | [] => pat.isEmpty
  | c :: cs => (matchPfx pat (c :: cs)).isSome || containsSubAux pat cs

def strContainsSub (s pat : String) : Bool :=
  containsSubAux pat.data s.data

/-- Python `s.startswith(pfx)`. -/
def strStartsWithPfx (s pfx : String) : Bool :=
  (matchPfx pfx.data s.data).isSome

/-- Left-to-right non-overlapping replacement of every occurrence of `pat`,
the semantics of Python `re.sub` with a literal pattern.  Fuel-driven; the
wrapper supplies enough fuel for the whole input. -/
def replaceSubAux (pat rep : List Char) : Nat → List Char → List Char
  | 0, cs => cs
  | _ + 1, [] => []
  | fuel + 1, c :: cs =>
    match matchPfx pat (c :: cs) with
    | some rest => rep ++ replaceSubAux pat rep fuel rest
    | none => c :: replaceSubAux pat rep fuel cs

def strReplaceAll (s pat rep : String) : String :=
  String.mk (replaceSubAux pat.data rep.data (s.data.length + 1) s.data)

/-- Python `s.split(sep)` for a one-character separator. -/
def splitOnChar (sep : Char) : List Char → List (List Char)
  | [] => [[]]
  | c :: rest =>
    let r := splitOnChar sep rest
    if c = sep then [] :: r
    else
      match r with
      | [] => [[c]]
      | g :: gs => (c :: g) :: gs

/-- `sql_table_name.split(".")` of the source. -/
def strSplitDot (s : String) : List String :=
  (splitOnChar '.' s.data).map String.mk

/-- Python `str.lower` (ASCII fragment). -/
def lowerStr (s : String) : String :=
  String.mk (s.data.map Char.toLower)

/-- Python `".".join(parts)`. -/
def intercalateDot : List String → String
  | [] => ""
  | [s] => s
  | s :: rest => s ++ "." ++ intercalateDot rest

/-- Connection profile of a view (`LookerConnectionDefinition`); supplied
externally per view, used by the qualified-name normalizer and the
strategies. -/
structure LookerConnectionDefinition where
  platform : String
  default_db : String
  default_schema : String
  platform_instance : Option String
  platform_env : Option String

/-- `_platform_names_have_2_parts` of `view_upstream.py`. -/
def _platform_names_have_2_parts (platform : String) : Bool :=
  platform = "hive" || platform = "mysql" || platform = "athena"

/-- `_generate_fully_qualified_name` of `view_upstream.py`.  The reported
warnings (calls to `reporter.report_warning`) are returned in the second
component. -/
def _generate_fully_qualified_name (sql_table_name : String)
    (connection_def : LookerConnectionDefinition) : String × List String :=
  let parts := (strSplitDot sql_table_name).length
  if parts = 3 then
    if _platform_names_have_2_parts connection_def.platform then
      (lowerStr (intercalateDot ((strSplitDot sql_table_name).drop 1)), [])
    else
      (lowerStr sql_table_name, [])
  else if parts = 1 then
    if _platform_names_have_2_parts connection_def.platform then
      (lowerStr (connection_def.default_db ++ "." ++ sql_table_name), [])
    else
      (lowerStr (connection_def.default_db ++ "." ++ connection_def.default_schema
        ++ "." ++ sql_table_name), [])
  else if parts = 2 then
    if _platform_names_have_2_parts connection_def.platform then
      (lowerStr sql_table_name, [])
    else
      (lowerStr (connection_def.default_db ++ "." ++ sql_table_name), [])
  else
    (lowerStr sql_table_name, [sql_table_name ++ " has more than 3 parts."])

/-! ## View trees and the deep merge

A parsed LookML view is a Python dict with string keys.  Values of
interest are SQL text (strings), booleans and nested dicts, embedded as
`JVal`.  A dict is an association list in insertion order, the Python 3.7+
dict semantics. -/

inductive JVal where
  | str (s : String)
  | bool (b : Bool)
  | obj (fields : List (String × JVal))

abbrev Dict := List (String × JVal)

/-- Python `d[k]` / `d.get(k)` lookup (first binding of `k`). -/
def dlookup : Dict → String → Option JVal
  | [], _ => none
  | (k, v) :: rest, key => if key = k then some v else dlookup rest key

/-- Update the value of an existing key in place (Python assignment to a
key that is present keeps its position). -/
def dupdate : Dict → String → JVal → Dict
  | [], _, _ => []
  | (k, v) :: rest, key, nv =>
    if key = k then (k, nv) :: rest else (k, v) :: dupdate rest key nv

/-- Python assignment `d[k] = v`: overwrite in place if present, append
otherwise. -/
def dset (d : Dict) (key : String) (nv : JVal) : Dict :=
  if (dlookup d key).isSome then dupdate d key nv else d ++ [(key, nv)]

/-- Python truthiness of a value, used by `if value_to_transform:`. -/
def pyTruthy : JVal → Bool
  | .str s => !s.isEmpty
  | .bool b => b
  | .obj fields => !fields.isEmpty

mutual

/-- The `deepmerge.always_merger` strategy on values: dicts merge
key-by-key, any other combination is overridden by the new value. -/
def jmerge : JVal → JVal → JVal
  | .obj base, .obj nxt => .obj (jmergeFields base nxt)
  | .str _, b => b
  | .bool _, b => b
  | .obj _, .str s => .str s
  | .obj _, .bool b => .bool b

/-- The `deepmerge.always_merger` strategy on dicts: for every key of the
update, merge into the base in place, appending fresh keys. -/
def jmergeFields : Dict → Dict → Dict
  | base, [] => base
  | base, (k, v) :: rest =>
    jmergeFields
      (match dlookup base k with
       | some old => dupdate base k (jmerge old v)
       | none => base ++ [(k, v)])
      rest

end

/-! Key constants of `looker_constant.py` (that module is outside the given
sources; the string values are the ones its imports denote, and only their
distinctness matters below). -/

def SQL_TABLE_NAME : String := "sql_table_name"
def DATAHUB_TRANSFORMED_SQL_TABLE_NAME : String := "datahub_transformed_sql_table_name"
def DERIVED_TABLE : String := "derived_table"
def SQL : String := "sql"
def DATAHUB_TRANSFORMED_SQL : String := "datahub_transformed_sql"
def NAME : String := "name"

/-- One pipeline stage: `_apply_transformation(value, view)` of a
`LookMLViewTransformer` subclass.  `none` models an uncaught Python
exception thrown by the stage. -/
abbrev Stage := JVal → Dict → Option JVal

/-- Second half of `LookMLViewTransformer.transform`: given the computed
`value_to_transform` (`none` = Python `None`) and whether
`DERIVED_TABLE in view and SQL in view[DERIVED_TABLE]` held, produce the
sparse update dict.  `none` models an exception from the stage body. -/
def transformer_finish (apply : Stage) (view : Dict) (vtt : Option JVal)
    (derived_sql_present : Bool) : Option Dict :=
  match vtt with
  | none => some []
  | some value =>
    match apply value view with
    | none => none
    | some transformed =>
      if (dlookup view SQL_TABLE_NAME).isSome && pyTruthy value then
        some [(DATAHUB_TRANSFORMED_SQL_TABLE_NAME, transformed)]
      else if derived_sql_present && pyTruthy value then
        some [(DERIVED_TABLE, .obj [(DATAHUB_TRANSFORMED_SQL, transformed)])]
      else
        some []

/-- The first conditional block of `LookMLViewTransformer.transform`: the
`value_to_transform` taken from `sql_table_name` (preferring the already
transformed value), before the derived-table block may overwrite it. -/
def transformer_vtt1 (view : Dict) : Option JVal :=
  match dlookup view SQL_TABLE_NAME with
  | some orig =>
    match dlookup view DATAHUB_TRANSFORMED_SQL_TABLE_NAME with
    | some t => some t
    | none => some orig
  | none => none

/-- `LookMLViewTransformer.transform` of `looker_template_language.py`
(the first conditional block is `transformer_vtt1` above).  Returns the
sparse update dict; `none` models an uncaught Python exception (`in`
applied to a bool value, or indexing a non-dict `derived_table`). -/
def transformer_transform (apply : Stage) (view : Dict) : Option Dict :=
  match dlookup view DERIVED_TABLE with
  | none => transformer_finish apply view (transformer_vtt1 view) false
  | some (.obj fs) =>
    match dlookup fs SQL with
    | none => transformer_finish apply view (transformer_vtt1 view) false
    | some origSql =>
      match dlookup fs DATAHUB_TRANSFORMED_SQL with
      | some t => transformer_finish apply view (some t) true
      | none => transformer_finish apply view (some origSql) true
  | some (.str s) =>
    if strContainsSub s SQL then none
    else transformer_finish apply view (transformer_vtt1 view) false
  | some (.bool _) => none

/-- The stage loop of `TransformedLookMlView.view`: deep-merge each
transformer output into the accumulating tree. -/
def run_transformers : List Stage → Dict → Option Dict
  | [], td => some td
  | t :: ts, td =>
    match transformer_transform t td with
    | none => none
    | some upd => run_transformers ts (jmergeFields td upd)

/-- `TransformedLookMlView.view` on first invocation.  The debug log line
evaluates `self.view_dict[NAME]`, which raises `KeyError` when the view has
no name; `none` models that. -/
def transformed_lookml_view (transformers : List Stage) (view_dict : Dict) :
    Option Dict :=
  match dlookup view_dict NAME with
  | none => none
  | some _ => run_transformers transformers view_dict

/-! ## Liquid variable resolution (`SpecialVariable`, `resolve_liquid_variable`)

The regular expression
`\b\w+(\.\w+)*\._(is_selected|in_query|is_filtered)\b` of
`SpecialVariable.SPECIAL_VARIABLE_PATTERN` is embedded by an explicit
scanner over the character list: the text decomposes into maximal dotted
chains of word-character runs, and inside a chain the leftmost match is the
longest dotted path whose last segment is one of the three reserved
suffixes (the greedy `(\.\w+)*` with backtracking); scanning resumes after
each match.  Word characters are the ASCII `\w` class. -/

def isWordChar (c : Char) : Bool :=
  c.isAlpha || c.isDigit || c = '_'

/-- Parse one maximal dotted chain of word runs starting at a word
character; returns the segments and the remaining characters. -/
def grabChain : Nat → List Char → List String × List Char
  | 0, cs => ([], cs)
  | fuel + 1, cs =>
    let seg := cs.takeWhile isWordChar
    let rest := cs.dropWhile isWordChar
    match rest with
    | '.' :: c :: cs2 =>
      if isWordChar c then
        let p := grabChain fuel (c :: cs2)
        (String.mk seg :: p.1, p.2)
      else
        ([String.mk seg], rest)
    | _ => ([String.mk seg], rest)

/-- Successive maximal dotted chains of a text. -/
def scanChains : Nat → List Char → List (List String)
  | 0, _ => []
  | _ + 1, [] => []
  | fuel + 1, c :: cs =>
    if isWordChar c then
      let p := grabChain (fuel + 1) (c :: cs)
      p.1 :: scanChains fuel p.2
    else
      scanChains fuel cs

def isSpecialSuffix (s : String) : Bool :=
  s = "_is_selected" || s = "_in_query" || s = "_is_filtered"

/-- Indices `i ≥ 1` of a chain at which a reserved suffix segment sits. -/
def suffixIndices (segs : List String) : List Nat :=
  (List.range segs.length).filter
    (fun i => decide (1 ≤ i) && isSpecialSuffix (segs.getD i ""))

/-- Matches of the special-variable pattern inside one dotted chain: the
greedy quantifier takes the largest viable suffix position, and matching
resumes on the remainder of the chain. -/
def chainMatches : Nat → List String → List String
  | 0, _ => []
  | fuel + 1, segs =>
    match (suffixIndices segs).getLast? with
    | none => []
    | some i =>
      intercalateDot (segs.take (i + 1)) :: chainMatches fuel (segs.drop (i + 1))

/-- Order-preserving deduplication; the Python code collects the matches
into a `set`, whose iteration order the model fixes to first occurrence. -/
def dedupKeepFirst (l : List String) : List String :=
  l.foldl (fun acc x => if acc.contains x then acc else acc ++ [x]) []

/-- `re.finditer(SPECIAL_VARIABLE_PATTERN, text)` collected into a set:
every dotted path of `text` ending in a reserved boolean suffix. -/
def extractSpecialVariables (text : String) : List String :=
  dedupKeepFirst
    (((scanChains (text.data.length + 1) text.data).map
      (fun ch => chainMatches (ch.length + 1) ch)).flatten)

/-- The nested-dict insertion loop of
`SpecialVariable._create_new_liquid_variables_with_default` for one dotted
path: create absent intermediate dicts, set the leaf to `True` if absent,
never overwrite.  `none` models the `TypeError` Python raises when an
intermediate key is bound to a non-dict value (walking into a bool, or
assigning into a string); walking into a string whose text happens to
contain the leaf key is the one silent no-op case of the Python semantics. -/
def insertSpecialPath : List String → Dict → Option Dict
  | [], d => some d
  | [k], d =>
    if (dlookup d k).isSome then some d else some (d ++ [(k, .bool true)])
  | k :: r :: rest, d =>
    match dlookup d k with
    | none =>
      match insertSpecialPath (r :: rest) [] with
      | some sub => some (d ++ [(k, .obj sub)])
      | none => none
    | some (.obj sub) =>
      match insertSpecialPath (r :: rest) sub with
      | some sub2 => some (dupdate d k (.obj sub2))
      | none => none
    | some (.str s) =>
      match rest with
      | [] => if strContainsSub s r then some d else none
      | _ => none
    | some (.bool _) => none

/-- `SpecialVariable._create_new_liquid_variables_with_default`: insert a
default `True` binding for every extracted path. -/
def create_new_liquid_variables_with_default (vars : List String)
    (liquid_variable : Dict) : Option Dict :=
  vars.foldl
    (fun acc v =>
      match acc with
      | none => none
      | some d => insertSpecialPath (strSplitDot v) d)
    (some liquid_variable)

/-- `SpecialVariable.liquid_variable_with_default`. -/
def liquid_variable_with_default (liquid_variable : Dict) (text : String) :
    Option Dict :=
  let vars := extractSpecialVariables text
  if vars.isEmpty then some liquid_variable
  else create_new_liquid_variables_with_default vars liquid_variable

/-- Modelled from the spec: the liquid templating engine (`create_template`
and `render` live outside the given sources).  A template is a sequence of
literal chunks and dotted variable references; this is the narrow
functional contract `render(text, variables) -> text` of the spec. -/
inductive LiquidElem where
  | lit (s : String)
  | var (path : List String)

/-- Modelled from the spec: dotted-path resolution of a variable against
the variable dictionary; descent is only possible through nested
mappings. -/
def liquidLookup : Dict → List String → Option JVal
  | _, [] => none
  | d, [k] => dlookup d k
  | d, k :: r :: rest =>
    match dlookup d k with
    | some (.obj sub) => liquidLookup sub (r :: rest)
    | _ => none

/-- Modelled from the spec: how a resolved value prints into the rendered
text (booleans print as liquid booleans; the exact text of a mapping is
irrelevant below, only that a resolved variable does not print as
`NULL`). -/
def jvalRender : JVal → String
  | .str s => s
  | .bool b => if b then "true" else "false"
  | .obj _ => "\x7b\x7d"

/-- Modelled from the spec: rendering with the patched
`Undefined.__str__`: a variable that does not resolve renders as the
literal text `NULL`. -/
def renderTemplate (t : List LiquidElem) (d : Dict) : String :=
  String.join
    (t.map fun e =>
      match e with
      | .lit s => s
      | .var p =>
        match liquidLookup d p with
        | some v => jvalRender v
        | none => "NULL")

/-- The raw text the parsed template came from; the scanner of
`SpecialVariable` runs over this text, as in the source. -/
def templateText (t : List LiquidElem) : String :=
  String.join
    (t.map fun e =>
      match e with
      | .lit s => s
      | .var p => "\x7b\x7b " ++ intercalateDot p ++ " \x7d\x7d")

/-- `resolve_liquid_variable` of `looker_template_language.py`: augment the
variable dictionary with defaults for the special boolean variables found
in the text, then render.  `none` models the uncaught `TypeError` from the
augmentation (only `LiquidSyntaxError` and `CustomTagException` are caught
by the source). -/
def resolve_liquid_variable (t : List LiquidElem) (liquid_variable : Dict) :
    Option String :=
  match liquid_variable_with_default liquid_variable (templateText t) with
  | none => none
  | some d => some (renderTemplate t d)

/-! ## The SQL-completion stage (`IncompleteSqlTransformer`) -/

/-- The Python regex class `\s` (ASCII fragment). -/
def isPySpace (c : Char) : Bool :=
  c = ' ' || c = '\t' || c = '\n' || c = '\r' || c = '\x0b' || c = '\x0c'

/-- Does the keyword (given lowercase) followed by one whitespace character
match here, case-insensitively? -/
def matchesKwAt : List Char → List Char → Bool
  | [], c :: _ => isPySpace c
  | [], [] => false
  | _ :: _, [] => false
  | k :: ks, c :: cs => (c.toLower = k) && matchesKwAt ks cs

/-- `re.search(kw + "\s", s, flags=re.I)` for a literal keyword. -/
def searchKwWs (kw : List Char) : List Char → Bool
  | [] => false
  | c :: cs => matchesKwAt kw (c :: cs) || searchKwWs kw cs

def re_search_kw_ws (kw s : String) : Bool :=
  searchKwWs kw.data s.data

/-- `IncompleteSqlTransformer._apply_transformation` of
`looker_template_language.py`. -/
def incomplete_sql_apply (value view_name : String) : String :=
  let sql_query := if !re_search_kw_ws "select" value then "SELECT " ++ value else value
  if !re_search_kw_ws "from" sql_query then sql_query ++ " FROM " ++ view_name
  else sql_query

/-- `IncompleteSqlTransformer` as a pipeline stage; it evaluates
`view[NAME]`, so a view without a string name (or a non-string SQL value)
raises. -/
def incomplete_sql_stage : Stage := fun value view =>
  match value, dlookup view NAME with
  | .str s, some (.str n) => some (.str (incomplete_sql_apply s n))
  | _, _ => none

/-! ## Upstream resolution strategies (`view_upstream.py`) -/

/-- `datahub.sql_parsing.sqlglot_lineage.ColumnRef`. -/
structure ColumnRef where
  table : String
  column : String
deriving DecidableEq

/-- `_drop_hive_dot` of `view_upstream.py`. -/
def _drop_hive_dot (urn : String) : String :=
  if strStartsWithPfx urn "urn:li:dataset:(urn:li:dataPlatform:hive" then
    strReplaceAll urn "hive." ""
  else urn

/-- `_drop_hive_dot_from_upstream` of `view_upstream.py`. -/
def _drop_hive_dot_from_upstream (upstreams : List ColumnRef) : List ColumnRef :=
  upstreams.map fun column_ref =>
    { table := _drop_hive_dot column_ref.table, column := column_ref.column }

/-- The behaviour claim C10 describes, written from its words: on a
hive-platform urn, remove exactly the one redundant leading `hive.`
segment of the dataset-name part, leaving every other part of the
identifier unchanged; other urns unmodified. -/
def drop_hive_dot_claimed (urn : String) : String :=
  match matchPfx ("urn:li:dataset:(urn:li:dataPlatform:hive,hive.").data urn.data with
  | some rest => "urn:li:dataset:(urn:li:dataPlatform:hive," ++ String.mk rest
  | none => urn

/-- `datahub.sql_parsing.sqlglot_lineage.SqlParsingResult.debug_info`:
separate table-level and column-level error indicators. -/
structure SqlParsingDebugInfo where
  table_error : Option String
  column_error : Option String

structure DownstreamColumnRef where
  column : String
  native_column_type : Option String

structure ColumnLineageInfo where
  downstream : DownstreamColumnRef
  upstreams : List ColumnRef

/-- The structured result of the external SQL-lineage parser
(`parseLineage` contract of the spec, section 6). -/
structure SqlParsingResult where
  in_tables : List String
  column_lineage : Option (List ColumnLineageInfo)
  debug_info : SqlParsingDebugInfo

/-- Modelled from the spec: `LookerFieldContext` of
`lookml_concept_context.py` (outside the given sources) — a read-only view
of one field exposing its name and the column names textually referenced
in its SQL attribute (spec, section 3, FieldContext). -/
structure LookerFieldContext where
  name : String
  column_name_in_sql_attribute : List String

/-- Modelled from the spec: the structural predicates and accessors of
`LookerViewContext` of `lookml_concept_context.py` (outside the given
sources).  The selector and the strategies consume them as opaque
inputs. -/
structure LookerViewContext where
  is_regular_case : Bool
  is_sql_table_name_referring_to_view : Bool
  is_sql_based_derived_case : Bool
  is_sql_based_derived_view_without_fields_case : Bool
  is_native_derived_case : Bool
  view_file_name : String
  name : String
  sql_table_name : String
  view_connection : LookerConnectionDefinition

/-- The configuration switches the strategies read
(`LookMLSourceConfig`). -/
structure LookMLSourceConfig where
  parse_table_names_from_sql : Bool
  env : String

/-- The five structural binding patterns a view is classified into. -/
inductive ViewUpstreamKind where
  | regular
  | dotSqlTableName
  | sqlBasedDerived
  | nativeDerived
  | emptyImplementation
deriving DecidableEq

/-- `create_view_upstream` of `view_upstream.py`: the strategy selector.
The second component collects the `reporter.report_warning(key, reason)`
calls. -/
def create_view_upstream (view_context : LookerViewContext) :
    ViewUpstreamKind × List (String × String) :=
  if view_context.is_regular_case then (.regular, [])
  else if view_context.is_sql_table_name_referring_to_view then
    (.dotSqlTableName, [])
  else if view_context.is_sql_based_derived_case
      || view_context.is_sql_based_derived_view_without_fields_case then
    (.sqlBasedDerived, [])
  else if view_context.is_native_derived_case then (.nativeDerived, [])
  else
    (.emptyImplementation,
      [(view_context.view_file_name,
        "No implementation found to resolve upstream of the view")])

/-- `EmptyImplementation.get_upstream_column_ref`. -/
def emptyImplementation_get_upstream_column_ref (_ : LookerFieldContext) :
    List ColumnRef := []

/-- `EmptyImplementation.get_upstream_dataset_urn`. -/
def emptyImplementation_get_upstream_dataset_urn : List String := []

/-- The inputs of one `SqlBasedDerivedViewUpstream` instance.
`parser_result` is what `create_lineage_sql_parsed_result` (the external
SQL-lineage parser) returns for the transformed SQL of this view.
`resolve_urn` is modelled from the spec: the per-identifier resolution of
self-referential derived-view names through the View Identity Cache
(`fix_derived_view_urn` and `resolve_derived_view_urn_of_col_ref` of
`lookml_resolver.py`, outside the given sources). -/
structure SqlBasedContext where
  config : LookMLSourceConfig
  parser_result : SqlParsingResult
  resolve_urn : String → String

/-- `SqlBasedDerivedViewUpstream.__get_spr`: `None` when SQL-name lineage
parsing is disabled, or when the parser reports a table-level or a
column-level error. -/
def sql_based_get_spr (c : SqlBasedContext) : Option SqlParsingResult :=
  if !c.config.parse_table_names_from_sql then none
  else if c.parser_result.debug_info.table_error.isSome
      || c.parser_result.debug_info.column_error.isSome then none
  else some c.parser_result

/-- `SqlBasedDerivedViewUpstream.__get_upstream_dataset_urn`. -/
def sql_based_get_upstream_dataset_urn (c : SqlBasedContext) : List String :=
  match sql_based_get_spr c with
  | none => []
  | some spr => (spr.in_tables.map _drop_hive_dot).map c.resolve_urn

/-- The first-matching-entry search of
`SqlBasedDerivedViewUpstream.get_upstream_column_ref`: the upstreams of the
first column-lineage entry whose downstream column is the field name. -/
def sql_based_matched_refs (spr : SqlParsingResult)
    (field_context : LookerFieldContext) : List ColumnRef :=
  match spr.column_lineage with
  | none => []
  | some clls =>
    match clls.find? (fun cll => cll.downstream.column = field_context.name) with
    | some cll => cll.upstreams
    | none => []

/-- `SqlBasedDerivedViewUpstream.get_upstream_column_ref`. -/
def sql_based_get_upstream_column_ref (c : SqlBasedContext)
    (field_context : LookerFieldContext) : List ColumnRef :=
  match sql_based_get_spr c with
  | none => []
  | some spr =>
    let matched := sql_based_matched_refs spr field_context
    let refs : List ColumnRef :=
      match sql_based_get_upstream_dataset_urn c, matched with
      | u :: _, [] =>
        field_context.column_name_in_sql_attribute.map
          (fun column => { table := u, column := column })
      | _, _ => matched
    refs.map fun r => { table := c.resolve_urn r.table, column := r.column }

/-- `ViewField` as built by `SqlBasedDerivedViewUpstream.create_fields`
(field_type is always `ViewFieldType.UNKNOWN` there, kept as a tag). -/
structure ViewField where
  name : String
  label : String
  native_type : String
  description : String
  field_type : String
  upstream_fields : List ColumnRef

/-- `SqlBasedDerivedViewUpstream.create_fields`. -/
def sql_based_create_fields (c : SqlBasedContext) : List ViewField :=
  match sql_based_get_spr c with
  | none => []
  | some spr =>
    ((spr.column_lineage).getD []).map fun cll =>
      { name := cll.downstream.column
        label := ""
        native_type := (cll.downstream.native_column_type).getD "unknown"
        description := ""
        field_type := "UNKNOWN"
        upstream_fields := _drop_hive_dot_from_upstream cll.upstreams }

/-! ### Call-level models of the memoization

`functools.lru_cache(maxsize=1)` on a zero-argument method caches any
result, an empty one included.  A call takes and returns the cache cell and
additionally reports how many times the underlying computation ran. -/

/-- One `lru_cache(maxsize=1)` cell around a zero-argument computation. -/
def lru1Call {α : Type} (compute : Unit → α) : Option α → α × Option α × Nat
  | some v => (v, some v, 0)
  | none => let v := compute (); (v, some v, 1)

/-- The two cache cells `SqlBasedDerivedViewUpstream.__init__` creates. -/
structure SqlBasedState where
  spr_cache : Option (Option SqlParsingResult)
  urn_cache : Option (List String)

/-- A call of `self._get_spr()`; the work counter counts runs of
`__get_spr` (each run invokes the external SQL-lineage parser). -/
def sql_based_call_get_spr (c : SqlBasedContext) (st : SqlBasedState) :
    Option SqlParsingResult × SqlBasedState × Nat :=
  let r := lru1Call (fun _ => sql_based_get_spr c) st.spr_cache
  (r.1, { st with spr_cache := r.2.1 }, r.2.2)

/-- A call of `self._get_upstream_dataset_urn()`. -/
def sql_based_call_get_upstream_dataset_urn (c : SqlBasedContext)
    (st : SqlBasedState) : List String × SqlBasedState × Nat :=
  match st.urn_cache with
  | some v => (v, st, 0)
  | none =>
    let r := sql_based_call_get_spr c st
    let urns : List String :=
      match r.1 with
      | none => []
      | some spr => (spr.in_tables.map _drop_hive_dot).map c.resolve_urn
    (urns, { r.2.1 with urn_cache := some urns }, r.2.2)

/-- A call of `SqlBasedDerivedViewUpstream.get_upstream_column_ref` (the
method itself is not cached; it reads the two cached cells). -/
def sql_based_call_get_upstream_column_ref (c : SqlBasedContext)
    (field_context : LookerFieldContext) (st : SqlBasedState) :
    List ColumnRef × SqlBasedState × Nat :=
  let r := sql_based_call_get_spr c st
  match r.1 with
  | none => ([], r.2.1, r.2.2)
  | some spr =>
    let matched := sql_based_matched_refs spr field_context
    let u := sql_based_call_get_upstream_dataset_urn c r.2.1
    let refs : List ColumnRef :=
      match u.1, matched with
      | t :: _, [] =>
        field_context.column_name_in_sql_attribute.map
          (fun column => { table := t, column := column })
      | _, _ => matched
    (refs.map fun cr => { table := c.resolve_urn cr.table, column := cr.column },
      u.2.1, r.2.2 + u.2.2)

/-- Python `a or b` for an optional string (`None` and the empty string
are falsy), used by `view_connection.platform_env or self.config.env`. -/
def pyOrStr (a : Option String) (b : String) : String :=
  match a with
  | some s => if s = "" then b else s
  | none => b

/-- Modelled from the spec: the dataset-identifier constructor
`make_dataset_urn_with_platform_instance` (external, spec section 6); any
total constructor works for the claims below. -/
def make_dataset_urn_with_platform_instance (platform nm : String)
    (platform_instance : Option String) (env : String) : String :=
  "urn:li:dataset:(urn:li:dataPlatform:" ++ platform ++ ","
    ++ (match platform_instance with
        | some pi => pi ++ "."
        | none => "")
    ++ nm ++ "," ++ env ++ ")"

/-- The body of `RegularViewUpstream._get_upstream_dataset_urn` on a cache
miss. -/
def regular_compute_upstream_dataset_urn (vc : LookerViewContext)
    (config : LookMLSourceConfig) : String :=
  let qualified_table_name :=
    (_generate_fully_qualified_name vc.sql_table_name vc.view_connection).1
  make_dataset_urn_with_platform_instance vc.view_connection.platform
    (lowerStr qualified_table_name) vc.view_connection.platform_instance
    (pyOrStr vc.view_connection.platform_env config.env)

/-- A call of `RegularViewUpstream._get_upstream_dataset_urn`: a
single-slot `None`-guard cache (`if self.upstream_dataset_urn is None`). -/
def regular_call_get_upstream_dataset_urn (vc : LookerViewContext)
    (config : LookMLSourceConfig) (st : Option String) :
    String × Option String × Nat :=
  match st with
  | some u => (u, some u, 0)
  | none =>
    let u := regular_compute_upstream_dataset_urn vc config
    (u, some u, 1)

/-- The inputs of one `DotSqlTableNameViewUpstream` instance.
`view_id_urn_lookup` is modelled from the spec: `get_derived_looker_view_id`
composed with `LookerViewId.get_urn` (both in modules outside the given
sources) — the identity-cache lookup of the referenced view; `none` is a
cache miss. -/
structure DotContext where
  sql_table_name : String
  view_connection : LookerConnectionDefinition
  view_id_urn_lookup : String → Option String

/-- The body of `DotSqlTableNameViewUpstream._get_upstream_dataset_urn` on
an empty-list state: qualify the referenced name and look it up. -/
def dot_compute_upstream_dataset_urn (c : DotContext) : List String :=
  match c.view_id_urn_lookup
      (_generate_fully_qualified_name c.sql_table_name c.view_connection).1 with
  | some urn => [urn]
  | none => []

/-- A call of `DotSqlTableNameViewUpstream._get_upstream_dataset_urn`: the
guard is `if not self.upstream_dataset_urn:`, so an empty result is never
cached and every call on the empty state re-performs the lookup (counter
counts lookups). -/
def dot_call_get_upstream_dataset_urn (c : DotContext) (st : List String) :
    List String × List String × Nat :=
  if st.isEmpty then
    let urns := dot_compute_upstream_dataset_urn c
    (urns, urns, 1)
  else (st, st, 0)

/-- The per-column loop of `DotSqlTableNameViewUpstream.get_upstream_column_ref`;
each iteration calls `self._get_upstream_dataset_urn()` again for index 0. -/
def dot_col_loop (c : DotContext) :
    List String → List String → Nat → List ColumnRef × List String × Nat
  | [], st, n => ([], st, n)
  | column :: cols, st, n =>
    let r := dot_call_get_upstream_dataset_urn c st
    let rest := dot_col_loop c cols r.2.1 (n + r.2.2)
    (({ table := r.1.headD "", column := column } : ColumnRef) :: rest.1,
      rest.2.1, rest.2.2)

/-- A call of `DotSqlTableNameViewUpstream.get_upstream_column_ref`. -/
def dot_call_get_upstream_column_ref (c : DotContext)
    (field_context : LookerFieldContext) (st : List String) :
    List ColumnRef × List String × Nat :=
  let r := dot_call_get_upstream_dataset_urn c st
  match r.1 with
  | [] => ([], r.2.1, r.2.2)
  | _ :: _ => dot_col_loop c field_context.column_name_in_sql_attribute r.2.1 r.2.2

/-- The inputs of one `NativeDerivedViewUpstream` instance; the synthesized
explore reference urn is modelled from the spec
(`LookerExplore.get_explore_urn`, external). -/
structure NativeContext where
  explore_urn : String

/-- A call of `NativeDerivedViewUpstream._get_upstream_dataset_urn`, an
`lru_cache(maxsize=1)` around the explore-urn computation. -/
def native_call_get_upstream_dataset_urn (c : NativeContext)
    (st : Option (List String)) : List String × Option (List String) × Nat :=
  lru1Call (fun _ => [c.explore_urn]) st

/-! ## Auxiliary decidable predicates and helpers used by the theorems -/

/-- A pipeline stage that applies a total string transformation to a
string value and, like every concrete stage of the source, raises on a
non-string value. -/
def strStage (f : String → String) : Stage := fun value _ =>
  match value with
  | .str s => some (.str (f s))
  | _ => none

/-- Left-to-right composition of a list of string transformations. -/
def foldStrFns (fs : List (String → String)) (s : String) : String :=
  fs.foldl (fun a f => f a) s

/-- The original `derived_table.sql` value of a view tree, when the
derived-table block is a dict. -/
def derivedSqlValue (d : Dict) : Option JVal :=
  match dlookup d DERIVED_TABLE with
  | some (.obj fs) => dlookup fs SQL
  | _ => none

/-- The transformed `derived_table.datahub_transformed_sql` value. -/
def derivedTransformedSqlValue (d : Dict) : Option JVal :=
  match dlookup d DERIVED_TABLE with
  | some (.obj fs) => dlookup fs DATAHUB_TRANSFORMED_SQL
  | _ => none

/-- Every binding already present along the proper prefixes of the dotted
path is a nested dict, so the Python insertion loop neither raises a
`TypeError` nor silently skips inside a string value. -/
def pathInsertable : List String → Dict → Bool
  | [], _ => true
  | [_], _ => true
  | k :: r :: rest, d =>
    match dlookup d k with
    | none => true
    | some (.obj sub) => pathInsertable (r :: rest) sub
    | some (.str _) => false
    | some (.bool _) => false

/-- Segment-list prefix test. -/
def segsIsPfx : List String → List String → Bool
  | [], _ => true
  | _ :: _, [] => false
  | a :: as, b :: bs => a == b && segsIsPfx as bs

/-- No path of the list is a (proper or improper) prefix of another. -/
def pathsPrefixFree : List (List String) → Bool
  | [] => true
  | p :: rest =>
    rest.all (fun q => !segsIsPfx p q && !segsIsPfx q p) && pathsPrefixFree rest

/-! # Theorems -/

/-- C1: `normalize(raw_name, profile)` follows the segment-count rules —
1 segment: prefixed with the default database, and with the default schema
unless the platform is two-part; 2 segments: kept for a two-part platform,
otherwise prefixed with the default database; 3 segments: kept for a
three-part platform, leading segment dropped for a two-part platform;
more than 3 segments: a warning is reported and the name returned
unchanged but lowercased; the output is always lowercased and the function
is total (never raises). -/
theorem claim_C1_qualified_name_normalizer (raw : String)
    (conn : LookerConnectionDefinition) :
    ((strSplitDot raw).length = 1 →
      _generate_fully_qualified_name raw conn =
        (if _platform_names_have_2_parts conn.platform then
            lowerStr (conn.default_db ++ "." ++ raw)
          else
            lowerStr (conn.default_db ++ "." ++ conn.default_schema ++ "." ++ raw),
          []))
    ∧ ((strSplitDot raw).length = 2 →
      _generate_fully_qualified_name raw conn =
        (if _platform_names_have_2_parts conn.platform then lowerStr raw
          else lowerStr (conn.default_db ++ "." ++ raw), []))
    ∧ ((strSplitDot raw).length = 3 →
      _generate_fully_qualified_name raw conn =
        (if _platform_names_have_2_parts conn.platform then
            lowerStr (intercalateDot ((strSplitDot raw).drop 1))
          else lowerStr raw, []))
    ∧ (3 < (strSplitDot raw).length →
      _generate_fully_qualified_name raw conn =
        (lowerStr raw, [raw ++ " has more than 3 parts."]))
    ∧ (∃ s, (_generate_fully_qualified_name raw conn).1 = lowerStr s) := by
  refine ⟨?_, ?_, ?_, ?_, ?_⟩
  · intro h
    simp only [_generate_fully_qualified_name, h]
    norm_num
    split_ifs <;> rfl
  · intro h
    simp only [_generate_fully_qualified_name, h]
    norm_num
    split_ifs <;> rfl
  · intro h
    simp only [_generate_fully_qualified_name, h]
    norm_num
    split_ifs <;> rfl
  · intro h
    have h1 : (strSplitDot raw).length ≠ 1 := by omega
    have h2 : (strSplitDot raw).length ≠ 2 := by omega
    have h3 : (strSplitDot raw).length ≠ 3 := by omega
    simp [_generate_fully_qualified_name, h1, h2, h3]
  · simp only [_generate_fully_qualified_name]
    split_ifs <;> exact ⟨_, rfl⟩

/-- Witness for C1 at the 1-segment input `"Tbl"` on the three-part
platform `"postgres"`. -/
theorem claim_C1_qualified_name_normalizer_witness :
    (strSplitDot "Tbl").length = 1 ∧
    _generate_fully_qualified_name "Tbl" ⟨"postgres", "Db", "Sch", none, none⟩
      = ("db.sch.tbl", []) := by
  constructor
  · decide
  · have h :=
      (claim_C1_qualified_name_normalizer "Tbl"
        ⟨"postgres", "Db", "Sch", none, none⟩).1 (by decide)
    rw [h]
    decide

/-- C3: for the SQL-derived strategy, a table-level or column-level parser
error, or SQL-name lineage parsing disabled by configuration, makes both
operations return empty lists, with no exception. -/
theorem claim_C3_sql_derived_soft_failure (c : SqlBasedContext)
    (h : c.config.parse_table_names_from_sql = false
        ∨ c.parser_result.debug_info.table_error.isSome = true
        ∨ c.parser_result.debug_info.column_error.isSome = true) :
    sql_based_get_upstream_dataset_urn c = []
    ∧ ∀ f, sql_based_get_upstream_column_ref c f = [] := by
  have hspr : sql_based_get_spr c = none := by
    unfold sql_based_get_spr
    rcases h with h | h | h <;> simp [h]
  constructor
  · unfold sql_based_get_upstream_dataset_urn
    rw [hspr]
  · intro f
    unfold sql_based_get_upstream_column_ref
    rw [hspr]

/-- Witness for C3: parsing disabled by configuration. -/
theorem claim_C3_sql_derived_soft_failure_witness :
    sql_based_get_upstream_dataset_urn
      ⟨⟨false, "PROD"⟩, ⟨["t"], none, ⟨none, none⟩⟩, id⟩ = []
    ∧ sql_based_get_upstream_column_ref
      ⟨⟨false, "PROD"⟩, ⟨["t"], none, ⟨none, none⟩⟩, id⟩ ⟨"f", ["c"]⟩ = [] := by
  have h := claim_C3_sql_derived_soft_failure
    ⟨⟨false, "PROD"⟩, ⟨["t"], none, ⟨none, none⟩⟩, id⟩ (Or.inl rfl)
  exact ⟨h.1, h.2 ⟨"f", ["c"]⟩⟩

/-- C2: the strategy selector is total and deterministic — every view
context is mapped to exactly one of the five variants, characterized by
the documented priority order (regular, then dot-reference, then
SQL-derived, then explore-derived); when nothing matches, a warning naming
the view file is reported and the returned strategy yields empty lists
from both operations; the selector is a total function (never raises). -/
theorem claim_C2_strategy_selector (vc : LookerViewContext) :
    ((create_view_upstream vc).1 = .regular ↔ vc.is_regular_case = true)
    ∧ ((create_view_upstream vc).1 = .dotSqlTableName ↔
        (vc.is_regular_case = false
          ∧ vc.is_sql_table_name_referring_to_view = true))
    ∧ ((create_view_upstream vc).1 = .sqlBasedDerived ↔
        (vc.is_regular_case = false
          ∧ vc.is_sql_table_name_referring_to_view = false
          ∧ (vc.is_sql_based_derived_case = true
            ∨ vc.is_sql_based_derived_view_without_fields_case = true)))
    ∧ ((create_view_upstream vc).1 = .nativeDerived ↔
        (vc.is_regular_case = false
          ∧ vc.is_sql_table_name_referring_to_view = false
          ∧ vc.is_sql_based_derived_case = false
          ∧ vc.is_sql_based_derived_view_without_fields_case = false
          ∧ vc.is_native_derived_case = true))
    ∧ ((create_view_upstream vc).1 = .emptyImplementation ↔
        (vc.is_regular_case = false
          ∧ vc.is_sql_table_name_referring_to_view = false
          ∧ vc.is_sql_based_derived_case = false
          ∧ vc.is_sql_based_derived_view_without_fields_case = false
          ∧ vc.is_native_derived_case = false))
    ∧ ((create_view_upstream vc).1 = .emptyImplementation →
        (create_view_upstream vc).2 =
          [(vc.view_file_name,
            "No implementation found to resolve upstream of the view")]
        ∧ emptyImplementation_get_upstream_dataset_urn = []
        ∧ ∀ f, emptyImplementation_get_upstream_column_ref f = [])
    ∧ ((create_view_upstream vc).1 ≠ .emptyImplementation →
        (create_view_upstream vc).2 = []) := by
  obtain ⟨p1, p2, p3, p4, p5, w, n, t, cd⟩ := vc
  cases p1 <;> cases p2 <;> cases p3 <;> cases p4 <;> cases p5 <;>
    simp [create_view_upstream, emptyImplementation_get_upstream_dataset_urn,
      emptyImplementation_get_upstream_column_ref]

/-- Witness for C2: a view context matching none of the patterns lands in
the empty implementation with the warning. -/
theorem claim_C2_strategy_selector_witness :
    (create_view_upstream
        ⟨false, false, false, false, false, "vf.view.lkml", "v", "t",
          ⟨"postgres", "d", "s", none, none⟩⟩).1 = .emptyImplementation
    ∧ (create_view_upstream
        ⟨false, false, false, false, false, "vf.view.lkml", "v", "t",
          ⟨"postgres", "d", "s", none, none⟩⟩).2 =
        [("vf.view.lkml",
          "No implementation found to resolve upstream of the view")]
    ∧ emptyImplementation_get_upstream_column_ref ⟨"f", ["c"]⟩ = [] := by
  have h := claim_C2_strategy_selector
    ⟨false, false, false, false, false, "vf.view.lkml", "v", "t",
      ⟨"postgres", "d", "s", none, none⟩⟩
  have h5 := h.2.2.2.2.1.mpr ⟨rfl, rfl, rfl, rfl, rfl⟩
  have h6 := h.2.2.2.2.2.1 h5
  exact ⟨h5, h6.1, h6.2.2 ⟨"f", ["c"]⟩⟩

/-- C10 counterexample: `_drop_hive_dot` removes every occurrence of the
substring `"hive."` in a hive-platform urn, not only a redundant leading
platform-name segment — on a dataset named `db.archive.tbl` (whose leading
segment is `db`, so the claim mandates no change) the code corrupts the
name to `db.arctbl`. -/
theorem claim_C10_hive_fixup_counterexample :
    _drop_hive_dot "urn:li:dataset:(urn:li:dataPlatform:hive,db.archive.tbl,PROD)"
      = "urn:li:dataset:(urn:li:dataPlatform:hive,db.arctbl,PROD)"
    ∧ drop_hive_dot_claimed
        "urn:li:dataset:(urn:li:dataPlatform:hive,db.archive.tbl,PROD)"
      = "urn:li:dataset:(urn:li:dataPlatform:hive,db.archive.tbl,PROD)"
    ∧ _drop_hive_dot "urn:li:dataset:(urn:li:dataPlatform:hive,db.archive.tbl,PROD)"
      ≠ drop_hive_dot_claimed
        "urn:li:dataset:(urn:li:dataPlatform:hive,db.archive.tbl,PROD)" :=
  ⟨by decide, by decide, by decide⟩

/-- C10 amended: the fixup removes every occurrence of the substring
`"hive."` from identifiers whose urn starts with the hive platform prefix
and leaves every other urn unmodified; the same fixup is applied to the
tables of per-field upstream column references, preserving their column
components.  On the intended inputs — a hive urn whose name carries a
single redundant leading `hive.` segment — this coincides with the claim
(last two conjuncts). -/
theorem claim_C10_hive_fixup_amended (urn : String) (ups : List ColumnRef) :
    (strStartsWithPfx urn "urn:li:dataset:(urn:li:dataPlatform:hive" = true →
      _drop_hive_dot urn = strReplaceAll urn "hive." "")
    ∧ (strStartsWithPfx urn "urn:li:dataset:(urn:li:dataPlatform:hive" = false →
      _drop_hive_dot urn = urn)
    ∧ _drop_hive_dot_from_upstream ups =
        ups.map (fun r => { table := _drop_hive_dot r.table, column := r.column })
    ∧ (_drop_hive_dot_from_upstream ups).map ColumnRef.column
        = ups.map ColumnRef.column
    ∧ _drop_hive_dot "urn:li:dataset:(urn:li:dataPlatform:hive,hive.db.tbl,PROD)"
        = "urn:li:dataset:(urn:li:dataPlatform:hive,db.tbl,PROD)"
    ∧ _drop_hive_dot "urn:li:dataset:(urn:li:dataPlatform:hive,hive.db.tbl,PROD)"
        = drop_hive_dot_claimed
            "urn:li:dataset:(urn:li:dataPlatform:hive,hive.db.tbl,PROD)" := by
  refine ⟨?_, ?_, rfl, ?_, by decide, by decide⟩
  · intro h
    unfold _drop_hive_dot
    rw [if_pos h]
  · intro h
    unfold _drop_hive_dot
    rw [if_neg]
    simp [h]
  · simp only [_drop_hive_dot_from_upstream, List.map_map]
    rfl

/-- Witness for C10 amended at a hive urn and a non-hive urn. -/
theorem claim_C10_hive_fixup_amended_witness :
    _drop_hive_dot "urn:li:dataset:(urn:li:dataPlatform:hive,hive.a.b,PROD)"
      = strReplaceAll "urn:li:dataset:(urn:li:dataPlatform:hive,hive.a.b,PROD)"
          "hive." ""
    ∧ _drop_hive_dot "urn:li:dataset:(urn:li:dataPlatform:postgres,hive.a.b,PROD)"
      = "urn:li:dataset:(urn:li:dataPlatform:postgres,hive.a.b,PROD)" :=
  ⟨(claim_C10_hive_fixup_amended
      "urn:li:dataset:(urn:li:dataPlatform:hive,hive.a.b,PROD)" []).1 (by decide),
    (claim_C10_hive_fixup_amended
      "urn:li:dataset:(urn:li:dataPlatform:postgres,hive.a.b,PROD)" []).2.1
      (by decide)⟩

/-- C4 counterexample: for a dot-reference view whose identity-cache
lookup misses, the empty first result is not memoized — the second call of
`_get_upstream_dataset_urn` on the same instance re-performs the lookup
(its work counter is 1 again, where the claim requires 0). -/
theorem claim_C4_memoization_counterexample :
    (dot_call_get_upstream_dataset_urn
        ⟨"ov", ⟨"postgres", "d", "s", none, none⟩, fun _ => none⟩ []).2.2 = 1
    ∧ (dot_call_get_upstream_dataset_urn
        ⟨"ov", ⟨"postgres", "d", "s", none, none⟩, fun _ => none⟩
        ((dot_call_get_upstream_dataset_urn
            ⟨"ov", ⟨"postgres", "d", "s", none, none⟩, fun _ => none⟩ []).2.1)).2.2
      = 1 :=
  ⟨rfl, rfl⟩

/-- C4 amended: the result-caching contract holds for the
`lru_cache`-backed strategies (SQL-derived and explore-derived, whose
caches keep empty results too) and for the regular strategy (whose single
slot is always filled by the first call); for the dot-reference strategy
it holds exactly when the identity-cache lookup succeeds — on a lookup
miss the empty result is not cached and every call, of either operation,
re-performs the lookup. -/
theorem claim_C4_memoization_amended (α : Type) (compute : Unit → α)
    (st0 : Option α) (c : SqlBasedContext) (f : LookerFieldContext)
    (vc : LookerViewContext) (config : LookMLSourceConfig)
    (rst : Option String) (nc : NativeContext) (nst : Option (List String))
    (dc : DotContext) (dst : List String) :
    ((lru1Call compute (lru1Call compute st0).2.1).2.2 = 0
      ∧ (lru1Call compute none).2.2 = 1)
    ∧ (regular_call_get_upstream_dataset_urn vc config
        (regular_call_get_upstream_dataset_urn vc config rst).2.1).2.2 = 0
    ∧ ((sql_based_call_get_upstream_dataset_urn c ⟨none, none⟩).2.2 = 1
      ∧ (sql_based_call_get_upstream_dataset_urn c
          (sql_based_call_get_upstream_dataset_urn c ⟨none, none⟩).2.1).2.2 = 0)
    ∧ ((sql_based_call_get_upstream_column_ref c f ⟨none, none⟩).2.2 = 1
      ∧ (sql_based_call_get_upstream_column_ref c f
          (sql_based_call_get_upstream_column_ref c f ⟨none, none⟩).2.1).2.2 = 0)
    ∧ (native_call_get_upstream_dataset_urn nc
        (native_call_get_upstream_dataset_urn nc nst).2.1).2.2 = 0
    ∧ ((∃ u, dc.view_id_urn_lookup
            (_generate_fully_qualified_name dc.sql_table_name
              dc.view_connection).1 = some u) →
        (dot_call_get_upstream_dataset_urn dc
          (dot_call_get_upstream_dataset_urn dc dst).2.1).2.2 = 0)
    ∧ (dc.view_id_urn_lookup
          (_generate_fully_qualified_name dc.sql_table_name
            dc.view_connection).1 = none →
        ((dot_call_get_upstream_dataset_urn dc []).2.1 = []
          ∧ (dot_call_get_upstream_dataset_urn dc
              (dot_call_get_upstream_dataset_urn dc []).2.1).2.2 = 1
          ∧ (dot_call_get_upstream_column_ref dc f
              (dot_call_get_upstream_column_ref dc f []).2.1).2.2 = 1)) := by
  refine ⟨⟨?_, rfl⟩, ?_, ?_, ?_, ?_, ?_, ?_⟩
  · cases st0 <;> rfl
  · cases rst <;> rfl
  · rcases hs : sql_based_get_spr c with - | spr <;>
      simp [sql_based_call_get_upstream_dataset_urn, sql_based_call_get_spr,
        lru1Call, hs]
  · rcases hs : sql_based_get_spr c with - | spr <;>
      simp [sql_based_call_get_upstream_column_ref,
        sql_based_call_get_upstream_dataset_urn, sql_based_call_get_spr,
        lru1Call, hs]
  · cases nst <;> rfl
  · rintro ⟨u, hu⟩
    cases dst <;>
      simp [dot_call_get_upstream_dataset_urn,
        dot_compute_upstream_dataset_urn, hu]
  · intro hu
    refine ⟨?_, ?_, ?_⟩ <;>
      simp [dot_call_get_upstream_dataset_urn,
        dot_call_get_upstream_column_ref,
        dot_compute_upstream_dataset_urn, hu]

/-- Witness for C4 amended, discharging the dot-reference hypotheses at a
hit context and a miss context. -/
theorem claim_C4_memoization_amended_witness :
    (dot_call_get_upstream_dataset_urn
        ⟨"ov", ⟨"postgres", "d", "s", none, none⟩, fun _ => some "u1"⟩
        (dot_call_get_upstream_dataset_urn
          ⟨"ov", ⟨"postgres", "d", "s", none, none⟩, fun _ => some "u1"⟩
          []).2.1).2.2 = 0
    ∧ (dot_call_get_upstream_dataset_urn
        ⟨"ov2", ⟨"postgres", "d", "s", none, none⟩, fun _ => none⟩
        (dot_call_get_upstream_dataset_urn
          ⟨"ov2", ⟨"postgres", "d", "s", none, none⟩, fun _ => none⟩ []).2.1).2.2
      = 1
    ∧ (lru1Call (fun _ => ([] : List String))
        (lru1Call (fun _ => ([] : List String)) none).2.1).2.2 = 0 := by
  refine ⟨?_, ?_, ?_⟩
  · exact (claim_C4_memoization_amended (List String) (fun _ => []) none
      ⟨⟨true, "PROD"⟩, ⟨[], none, ⟨none, none⟩⟩, id⟩ ⟨"f", []⟩
      ⟨true, false, false, false, false, "w", "n", "t",
        ⟨"postgres", "d", "s", none, none⟩⟩
      ⟨true, "PROD"⟩ none ⟨"e"⟩ none
      ⟨"ov", ⟨"postgres", "d", "s", none, none⟩, fun _ => some "u1"⟩
      []).2.2.2.2.2.1 ⟨"u1", rfl⟩
  · exact ((claim_C4_memoization_amended (List String) (fun _ => []) none
      ⟨⟨true, "PROD"⟩, ⟨[], none, ⟨none, none⟩⟩, id⟩ ⟨"f", []⟩
      ⟨true, false, false, false, false, "w", "n", "t",
        ⟨"postgres", "d", "s", none, none⟩⟩
      ⟨true, "PROD"⟩ none ⟨"e"⟩ none
      ⟨"ov2", ⟨"postgres", "d", "s", none, none⟩, fun _ => none⟩
      []).2.2.2.2.2.2 rfl).2.1
  · exact (claim_C4_memoization_amended (List String) (fun _ => []) none
      ⟨⟨true, "PROD"⟩, ⟨[], none, ⟨none, none⟩⟩, id⟩ ⟨"f", []⟩
      ⟨true, false, false, false, false, "w", "n", "t",
        ⟨"postgres", "d", "s", none, none⟩⟩
      ⟨true, "PROD"⟩ none ⟨"e"⟩ none
      ⟨"ov", ⟨"postgres", "d", "s", none, none⟩, fun _ => some "u1"⟩
      []).1.1

/-- C5 counterexample: the parser output contains a column-lineage entry
whose downstream column equals the field name but whose upstream list is
empty; the claim then requires the empty list, yet the code falls back to
one ColumnRef per referenced column on the first resolved upstream
dataset. -/
theorem claim_C5_column_ref_counterexample :
    ([⟨⟨"f", none⟩, []⟩] : List ColumnLineageInfo).find?
        (fun cll => cll.downstream.column = "f") = some ⟨⟨"f", none⟩, []⟩
    ∧ sql_based_matched_refs
        ⟨["t1"], some [⟨⟨"f", none⟩, []⟩], ⟨none, none⟩⟩ ⟨"f", ["c1"]⟩ = []
    ∧ sql_based_get_upstream_column_ref
        ⟨⟨true, "PROD"⟩, ⟨["t1"], some [⟨⟨"f", none⟩, []⟩], ⟨none, none⟩⟩, id⟩
        ⟨"f", ["c1"]⟩ = [⟨"t1", "c1"⟩]
    ∧ ([⟨"t1", "c1"⟩] : List ColumnRef) ≠ [] :=
  ⟨rfl, rfl, rfl, by decide⟩

/-- C5 amended: when SQL parsing succeeded, the field column lineage is —
in this order — the (derived-view-resolved) upstream list of the first
column-lineage entry whose downstream column equals the field name,
provided that list is nonempty; otherwise (no matching entry, or a
matching entry with an empty upstream list) one ColumnRef per
textually-referenced column pointing at the first resolved upstream
dataset, when one exists; otherwise the empty list. -/
theorem claim_C5_column_ref_amended (c : SqlBasedContext)
    (f : LookerFieldContext) (spr : SqlParsingResult)
    (h : sql_based_get_spr c = some spr) :
    (sql_based_matched_refs spr f ≠ [] →
      sql_based_get_upstream_column_ref c f =
        (sql_based_matched_refs spr f).map
          (fun r => { table := c.resolve_urn r.table, column := r.column }))
    ∧ (∀ u us, sql_based_matched_refs spr f = [] →
        sql_based_get_upstream_dataset_urn c = u :: us →
        sql_based_get_upstream_column_ref c f =
          f.column_name_in_sql_attribute.map
            (fun column => { table := c.resolve_urn u, column := column }))
    ∧ (sql_based_matched_refs spr f = [] →
        sql_based_get_upstream_dataset_urn c = [] →
        sql_based_get_upstream_column_ref c f = []) := by
  refine ⟨?_, ?_, ?_⟩
  · intro hm
    unfold sql_based_get_upstream_column_ref
    rw [h]
    cases hm2 : sql_based_matched_refs spr f with
    | nil => exact absurd hm2 hm
    | cons a as =>
      cases hd : sql_based_get_upstream_dataset_urn c <;> simp [hm2, hd]
  · intro u us hm hd
    unfold sql_based_get_upstream_column_ref
    rw [h]
    simp [hm, hd]
  · intro hm hd
    unfold sql_based_get_upstream_column_ref
    rw [h]
    simp [hm, hd]

/-- Witness for C5 amended: a matching entry with a nonempty upstream
list is returned as-is, and with no matching entry the fallback points
every referenced column at the first resolved dataset. -/
theorem claim_C5_column_ref_amended_witness :
    sql_based_get_upstream_column_ref
      ⟨⟨true, "PROD"⟩, ⟨["t1"], some [⟨⟨"f", none⟩, [⟨"t0", "cc"⟩]⟩],
        ⟨none, none⟩⟩, id⟩ ⟨"f", ["c1"]⟩ = [⟨"t0", "cc"⟩]
    ∧ sql_based_get_upstream_column_ref
      ⟨⟨true, "PROD"⟩, ⟨["t1"], none, ⟨none, none⟩⟩, id⟩ ⟨"f", ["c1", "c2"]⟩
      = [⟨"t1", "c1"⟩, ⟨"t1", "c2"⟩] := by
  constructor
  · have h := (claim_C5_column_ref_amended
      ⟨⟨true, "PROD"⟩, ⟨["t1"], some [⟨⟨"f", none⟩, [⟨"t0", "cc"⟩]⟩],
        ⟨none, none⟩⟩, id⟩ ⟨"f", ["c1"]⟩
      ⟨["t1"], some [⟨⟨"f", none⟩, [⟨"t0", "cc"⟩]⟩], ⟨none, none⟩⟩ rfl).1
      (by decide)
    rw [h]
    rfl
  · have h := (claim_C5_column_ref_amended
      ⟨⟨true, "PROD"⟩, ⟨["t1"], none, ⟨none, none⟩⟩, id⟩ ⟨"f", ["c1", "c2"]⟩
      ⟨["t1"], none, ⟨none, none⟩⟩ rfl).2.1 "t1" [] rfl rfl
    rw [h]
    rfl

/-- C9: the SQL-completion stage prepends `SELECT ` exactly when the
fragment has no case-insensitive SELECT keyword, and appends
` FROM <view-name>` exactly when the result has no case-insensitive FROM
keyword (keyword = the word followed by whitespace, the keyword search the
source performs); `a.b = 1` for view `orders` becomes
`SELECT a.b = 1 FROM orders`, and an input containing both keywords is
returned unchanged. -/
theorem claim_C9_sql_completion (value view_name : String) :
    incomplete_sql_apply value view_name =
      (if re_search_kw_ws "select" value then "" else "SELECT ") ++ value
        ++ (if re_search_kw_ws "from"
              ((if re_search_kw_ws "select" value then "" else "SELECT ") ++ value)
            then "" else " FROM " ++ view_name)
    ∧ (re_search_kw_ws "select" value = true →
        re_search_kw_ws "from" value = true →
        incomplete_sql_apply value view_name = value)
    ∧ incomplete_sql_apply "a.b = 1" "orders" = "SELECT a.b = 1 FROM orders" := by
  refine ⟨?_, ?_, by decide⟩
  · unfold incomplete_sql_apply
    cases h1 : re_search_kw_ws "select" value
    · cases h2 : re_search_kw_ws "from" ("SELECT " ++ value)
      · simp [h1, h2, String.append_assoc]
      · simp [h1, h2]
    · cases h2 : re_search_kw_ws "from" value
      · simp [h1, h2, String.append_assoc]
      · simp [h1, h2]
  · intro h1 h2
    unfold incomplete_sql_apply
    simp [h1, h2]

/-- Witness for C9 at an input already containing both keywords. -/
theorem claim_C9_sql_completion_witness :
    incomplete_sql_apply "SELECT x FROM t" "v" = "SELECT x FROM t" :=
  (claim_C9_sql_completion "SELECT x FROM t" "v").2.1 (by decide) (by decide)

/-! ### Lemmas on dict lookup and the deep merge, shared by C6 and C7 -/

theorem dlookup_append_single_ne (d : Dict) (k k2 : String) (v : JVal)
    (h : k ≠ k2) : dlookup (d ++ [(k2, v)]) k = dlookup d k := by
  induction d with
  | nil => simp [dlookup, h]
  | cons a rest ih =>
    obtain ⟨ka, va⟩ := a
    by_cases hk : k = ka <;> simp [dlookup, hk, ih]

theorem dlookup_dupdate_ne (d : Dict) (k k2 : String) (v : JVal)
    (h : k ≠ k2) : dlookup (dupdate d k2 v) k = dlookup d k := by
  induction d with
  | nil => simp [dupdate]
  | cons a rest ih =>
    obtain ⟨ka, va⟩ := a
    by_cases hk2 : k2 = ka
    · subst hk2
      simp [dupdate, dlookup, h]
    · by_cases hk : k = ka <;> simp [dupdate, dlookup, hk, hk2, ih]

theorem dlookup_dupdate_self (d : Dict) (k : String) (v old : JVal)
    (h : dlookup d k = some old) : dlookup (dupdate d k v) k = some v := by
  induction d with
  | nil => simp [dlookup] at h
  | cons a rest ih =>
    obtain ⟨ka, va⟩ := a
    by_cases hk : k = ka
    · simp [dupdate, dlookup, hk]
    · simp [dlookup, hk] at h
      simp [dupdate, dlookup, hk, ih h]

/-- A merge whose update does not bind `k` leaves the lookup of `k`
unchanged. -/
theorem dlookup_jmergeFields_notin (upd : Dict) (base : Dict) (k : String)
    (h : dlookup upd k = none) :
    dlookup (jmergeFields base upd) k = dlookup base k := by
  induction upd generalizing base with
  | nil => rw [jmergeFields]
  | cons a rest ih =>
    obtain ⟨k2, v⟩ := a
    have hne : k ≠ k2 := by
      intro he
      simp [dlookup, he] at h
    have hrest : dlookup rest k = none := by
      simpa [dlookup, hne] using h
    rw [jmergeFields]
    cases hb : dlookup base k2 with
    | some old =>
      rw [ih _ hrest, dlookup_dupdate_ne _ _ _ _ hne]
    | none =>
      rw [ih _ hrest, dlookup_append_single_ne _ _ _ _ hne]

/-- Shape of the sparse update `LookMLViewTransformer.transform` can
return: empty, a transformed-sql-table-name binding, or a derived-table
block holding only the transformed-sql key (the latter only when the view
has a derived-table dict with a sql key). -/
theorem transformer_finish_shape (t : Stage) (view : Dict) (vtt : Option JVal)
    (dsp : Bool) (upd : Dict) (h : transformer_finish t view vtt dsp = some upd) :
    upd = []
    ∨ (∃ x, upd = [(DATAHUB_TRANSFORMED_SQL_TABLE_NAME, x)])
    ∨ (dsp = true
        ∧ ∃ x, upd = [(DERIVED_TABLE, .obj [(DATAHUB_TRANSFORMED_SQL, x)])]) := by
  unfold transformer_finish at h
  split at h
  · exact Or.inl (Option.some_inj.mp h).symm
  · split at h
    · exact absurd h (by simp)
    · split at h
      · exact Or.inr (Or.inl ⟨_, (Option.some_inj.mp h).symm⟩)
      · split at h
        · next h2 =>
            simp only [Bool.and_eq_true] at h2
            exact Or.inr (Or.inr ⟨h2.1, _, (Option.some_inj.mp h).symm⟩)
        · exact Or.inl (Option.some_inj.mp h).symm

theorem transformer_transform_shape (t : Stage) (td : Dict) (upd : Dict)
    (h : transformer_transform t td = some upd) :
    upd = []
    ∨ (∃ x, upd = [(DATAHUB_TRANSFORMED_SQL_TABLE_NAME, x)])
    ∨ (∃ x fs, upd = [(DERIVED_TABLE, .obj [(DATAHUB_TRANSFORMED_SQL, x)])]
        ∧ dlookup td DERIVED_TABLE = some (.obj fs)) := by
  unfold transformer_transform at h
  split at h
  · rcases transformer_finish_shape _ _ _ _ _ h with h1 | h1 | h1
    · exact Or.inl h1
    · exact Or.inr (Or.inl h1)
    · exact absurd h1.1 (by simp)
  · next fs heq =>
    have hshape : ∀ (vtt : Option JVal) (dsp : Bool),
        transformer_finish t td vtt dsp = some upd →
        upd = []
        ∨ (∃ x, upd = [(DATAHUB_TRANSFORMED_SQL_TABLE_NAME, x)])
        ∨ (∃ x fs2, upd = [(DERIVED_TABLE, .obj [(DATAHUB_TRANSFORMED_SQL, x)])]
            ∧ dlookup td DERIVED_TABLE = some (.obj fs2)) := by
      intro vtt dsp hf
      rcases transformer_finish_shape _ _ _ _ _ hf with h1 | h1 | h1
      · exact Or.inl h1
      · exact Or.inr (Or.inl h1)
      · exact Or.inr (Or.inr ⟨h1.2.choose, fs, h1.2.choose_spec, heq⟩)
    split at h
    · exact hshape _ _ h
    · split at h
      · exact hshape _ _ h
      · exact hshape _ _ h
  · split at h
    · exact absurd h (by simp)
    · rcases transformer_finish_shape _ _ _ _ _ h with h1 | h1 | h1
      · exact Or.inl h1
      · exact Or.inr (Or.inl h1)
      · exact absurd h1.1 (by simp)
  · exact absurd h (by simp)

theorem dlookup_single_ne (k k2 : String) (x : JVal) (h : k ≠ k2) :
    dlookup [(k2, x)] k = none := by
  simp [dlookup, h]

/-- Merging any update a stage can produce leaves the original
`sql_table_name` and `derived_table.sql` values unchanged. -/
theorem merge_preserves_originals (t : Stage) (td upd : Dict)
    (h : transformer_transform t td = some upd) :
    dlookup (jmergeFields td upd) SQL_TABLE_NAME = dlookup td SQL_TABLE_NAME
    ∧ derivedSqlValue (jmergeFields td upd) = derivedSqlValue td := by
  rcases transformer_transform_shape _ _ _ h with h1 | ⟨x, h1⟩ | ⟨x, fs, h1, hd⟩
  · subst h1
    rw [jmergeFields]
    exact ⟨rfl, rfl⟩
  · subst h1
    constructor
    · exact dlookup_jmergeFields_notin _ _ _
        (dlookup_single_ne _ _ _ (by decide))
    · unfold derivedSqlValue
      rw [dlookup_jmergeFields_notin _ _ _ (dlookup_single_ne _ _ _ (by decide))]
  · subst h1
    constructor
    · rw [jmergeFields, hd, jmergeFields]
      exact dlookup_dupdate_ne _ _ _ _ (by decide)
    · rw [jmergeFields, hd, jmergeFields]
      unfold derivedSqlValue
      rw [dlookup_dupdate_self _ _ _ _ hd, hd]
      rw [jmerge]
      show dlookup (jmergeFields fs [(DATAHUB_TRANSFORMED_SQL, x)]) SQL
        = dlookup fs SQL
      exact dlookup_jmergeFields_notin _ _ _ (dlookup_single_ne _ _ _ (by decide))

/-- The stage loop preserves the two original SQL-bearing fields. -/
theorem run_transformers_preserves_originals (ts : List Stage) (td v2 : Dict)
    (h : run_transformers ts td = some v2) :
    dlookup v2 SQL_TABLE_NAME = dlookup td SQL_TABLE_NAME
    ∧ derivedSqlValue v2 = derivedSqlValue td := by
  induction ts generalizing td with
  | nil =>
    unfold run_transformers at h
    rw [Option.some_inj.mp h]
    exact ⟨rfl, rfl⟩
  | cons t ts ih =>
    unfold run_transformers at h
    split at h
    · exact absurd h (by simp)
    · next upd heq =>
      obtain ⟨h1, h2⟩ := ih _ h
      obtain ⟨p1, p2⟩ := merge_preserves_originals t td upd heq
      exact ⟨h1.trans p1, h2.trans p2⟩

/-- C6: the template pipeline never overwrites the original SQL-bearing
fields — the `sql_table_name` value and the `derived_table.sql` value of
the input tree reappear unchanged in the result, for any list of stages;
the transformed values live under the distinct derived keys, so original
and transformed coexist. -/
theorem claim_C6_originals_never_overwritten (ts : List Stage) (v v2 : Dict)
    (h : transformed_lookml_view ts v = some v2) :
    dlookup v2 SQL_TABLE_NAME = dlookup v SQL_TABLE_NAME
    ∧ derivedSqlValue v2 = derivedSqlValue v
    ∧ SQL_TABLE_NAME ≠ DATAHUB_TRANSFORMED_SQL_TABLE_NAME
    ∧ SQL ≠ DATAHUB_TRANSFORMED_SQL := by
  unfold transformed_lookml_view at h
  split at h
  · exact absurd h (by simp)
  · have hp := run_transformers_preserves_originals _ _ _ h
    exact ⟨hp.1, hp.2, by decide, by decide⟩

/-- Witness for C6: a concrete one-stage run in which the transformed
value is added next to the untouched original. -/
theorem claim_C6_originals_never_overwritten_witness :
    dlookup [(NAME, JVal.str "orders"), (SQL_TABLE_NAME, JVal.str "a.b = 1"),
        (DATAHUB_TRANSFORMED_SQL_TABLE_NAME,
          JVal.str "SELECT a.b = 1 FROM orders")] SQL_TABLE_NAME
      = dlookup [(NAME, JVal.str "orders"), (SQL_TABLE_NAME, JVal.str "a.b = 1")]
          SQL_TABLE_NAME
    ∧ derivedSqlValue [(NAME, JVal.str "orders"),
        (SQL_TABLE_NAME, JVal.str "a.b = 1"),
        (DATAHUB_TRANSFORMED_SQL_TABLE_NAME,
          JVal.str "SELECT a.b = 1 FROM orders")]
      = derivedSqlValue [(NAME, JVal.str "orders"),
          (SQL_TABLE_NAME, JVal.str "a.b = 1")] :=
  have h : transformed_lookml_view [incomplete_sql_stage]
      [(NAME, JVal.str "orders"), (SQL_TABLE_NAME, JVal.str "a.b = 1")]
    = some [(NAME, JVal.str "orders"), (SQL_TABLE_NAME, JVal.str "a.b = 1"),
        (DATAHUB_TRANSFORMED_SQL_TABLE_NAME,
          JVal.str "SELECT a.b = 1 FROM orders")] := rfl
  ⟨(claim_C6_originals_never_overwritten _ _ _ h).1,
    (claim_C6_originals_never_overwritten _ _ _ h).2.1⟩

/-- C7 counterexample: on a view carrying both SQL-bearing locations
(`sql_table_name` = `"t"` and `derived_table.sql` = `"s"`), one stage
appending `"!"` yields a tree whose transformed sql-table-name key holds
the transform of the derived-table sql (`"s!"`), not of the original
sql-table-name (`"t!"`), and whose transformed derived-table sql key is
never written. -/
theorem claim_C7_two_locations_counterexample :
    transformed_lookml_view [strStage (fun s => s ++ "!")]
        [(NAME, JVal.str "v"), (SQL_TABLE_NAME, JVal.str "t"),
          (DERIVED_TABLE, JVal.obj [(SQL, JVal.str "s")])]
      = some [(NAME, JVal.str "v"), (SQL_TABLE_NAME, JVal.str "t"),
          (DERIVED_TABLE, JVal.obj [(SQL, JVal.str "s")]),
          (DATAHUB_TRANSFORMED_SQL_TABLE_NAME, JVal.str "s!")]
    ∧ dlookup [(NAME, JVal.str "v"), (SQL_TABLE_NAME, JVal.str "t"),
          (DERIVED_TABLE, JVal.obj [(SQL, JVal.str "s")]),
          (DATAHUB_TRANSFORMED_SQL_TABLE_NAME, JVal.str "s!")]
        DATAHUB_TRANSFORMED_SQL_TABLE_NAME = some (JVal.str "s!")
    ∧ JVal.str "s!" ≠ JVal.str ("t" ++ "!")
    ∧ derivedTransformedSqlValue [(NAME, JVal.str "v"),
          (SQL_TABLE_NAME, JVal.str "t"),
          (DERIVED_TABLE, JVal.obj [(SQL, JVal.str "s")]),
          (DATAHUB_TRANSFORMED_SQL_TABLE_NAME, JVal.str "s!")] = none := by
  refine ⟨rfl, rfl, ?_, rfl⟩
  intro h
  injection h with h2
  exact absurd h2 (by decide)

theorem jmerge_str_right (old : JVal) (x : String) :
    jmerge old (.str x) = .str x := by
  cases old <;> rfl

theorem dlookup_append_single_self (d : Dict) (k : String) (v : JVal)
    (h : dlookup d k = none) : dlookup (d ++ [(k, v)]) k = some v := by
  induction d with
  | nil => simp [dlookup]
  | cons a rest ih =>
    obtain ⟨ka, va⟩ := a
    by_cases hk : k = ka
    · simp [dlookup, hk] at h
    · simp [dlookup, hk] at h ⊢
      exact ih h

theorem dlookup_jmergeFields_single_str (td : Dict) (k : String) (x : String) :
    dlookup (jmergeFields td [(k, .str x)]) k = some (.str x) := by
  rw [jmergeFields]
  cases h : dlookup td k with
  | some old =>
    simp only [h]
    rw [jmergeFields, jmerge_str_right]
    exact dlookup_dupdate_self _ _ _ _ h
  | none =>
    simp only [h]
    rw [jmergeFields]
    exact dlookup_append_single_self _ _ _ h

theorem dlookup_jmergeFields_single_obj (td : Dict) (k : String) (u : Dict)
    (dfs : Dict) (h : dlookup td k = some (.obj dfs)) :
    dlookup (jmergeFields td [(k, .obj u)]) k
      = some (.obj (jmergeFields dfs u)) := by
  rw [jmergeFields]
  simp only [h]
  rw [jmergeFields, jmerge]
  exact dlookup_dupdate_self _ _ _ _ h

/-- One stage on a view with both SQL-bearing locations: the update binds
the transformed sql-table-name key to the transform of the raw
derived-table sql. -/
theorem transform_step_both (f : String → String) (td : Dict) (dfs : Dict)
    (s : String) (hstn : (dlookup td SQL_TABLE_NAME).isSome = true)
    (hdt : dlookup td DERIVED_TABLE = some (.obj dfs))
    (hsql : dlookup dfs SQL = some (.str s))
    (hT2 : dlookup dfs DATAHUB_TRANSFORMED_SQL = none)
    (hs : s ≠ "") :
    transformer_transform (strStage f) td
      = some [(DATAHUB_TRANSFORMED_SQL_TABLE_NAME, .str (f s))] := by
  unfold transformer_transform
  simp only [hdt, hsql, hT2]
  unfold transformer_finish strStage
  have htr : pyTruthy (.str s) = true := by
    have hemp : String.isEmpty s = false := by
      rw [Bool.eq_false_iff]
      intro hx
      exact hs ((String.isEmpty_iff _).mp hx)
    simp [pyTruthy, hemp]
  simp [hstn, htr]

/-- One stage on a view whose only SQL-bearing location is
`sql_table_name`, currently carrying the (possibly already transformed)
value `cur`. -/
theorem transform_step_stn (f : String → String) (td : Dict) (cur : String)
    (hdtn : dlookup td DERIVED_TABLE = none)
    (hstn : (dlookup td SQL_TABLE_NAME).isSome = true)
    (hvtt : transformer_vtt1 td = some (.str cur))
    (hc : cur ≠ "") :
    transformer_transform (strStage f) td
      = some [(DATAHUB_TRANSFORMED_SQL_TABLE_NAME, .str (f cur))] := by
  unfold transformer_transform
  simp only [hdtn]
  unfold transformer_finish
  rw [hvtt]
  unfold strStage
  have htr : pyTruthy (.str cur) = true := by
    have hemp : String.isEmpty cur = false := by
      rw [Bool.eq_false_iff]
      intro hx
      exact hc ((String.isEmpty_iff _).mp hx)
    simp [pyTruthy, hemp]
  simp [hstn, htr]

/-- One stage on a view whose only SQL-bearing location is the
derived-table sql, currently carrying `cur`. -/
theorem transform_step_derived (f : String → String) (td : Dict) (dfs : Dict)
    (s0 cur : String) (hstn : dlookup td SQL_TABLE_NAME = none)
    (hdt : dlookup td DERIVED_TABLE = some (.obj dfs))
    (hsql : dlookup dfs SQL = some (.str s0))
    (hcur : dlookup dfs DATAHUB_TRANSFORMED_SQL = some (.str cur)
            ∨ (dlookup dfs DATAHUB_TRANSFORMED_SQL = none ∧ cur = s0))
    (hc : cur ≠ "") :
    transformer_transform (strStage f) td
      = some [(DERIVED_TABLE, .obj [(DATAHUB_TRANSFORMED_SQL, .str (f cur))])] := by
  unfold transformer_transform
  simp only [hdt, hsql]
  have htr : pyTruthy (.str cur) = true := by
    have hemp : String.isEmpty cur = false := by
      rw [Bool.eq_false_iff]
      intro hx
      exact hc ((String.isEmpty_iff _).mp hx)
    simp [pyTruthy, hemp]
  rcases hcur with hcur | ⟨hcur, hceq⟩
  · simp only [hcur]
    unfold transformer_finish strStage
    simp [hstn, htr]
  · subst hceq
    simp only [hcur]
    unfold transformer_finish strStage
    simp [hstn, htr]

/-- Running the stages over a view with both SQL-bearing locations: every
stage re-reads the raw derived sql, so the final transformed
sql-table-name value is the last stage applied to it, and the derived
block never changes. -/
theorem run_transformers_both (fs : List (String → String)) (td v2 dfs : Dict)
    (s : String) (hstn : (dlookup td SQL_TABLE_NAME).isSome = true)
    (hdt : dlookup td DERIVED_TABLE = some (.obj dfs))
    (hsql : dlookup dfs SQL = some (.str s))
    (hT2 : dlookup dfs DATAHUB_TRANSFORMED_SQL = none)
    (hs : s ≠ "")
    (h : run_transformers (fs.map strStage) td = some v2) :
    (fs = [] → v2 = td)
    ∧ (∀ fl, fs.getLast? = some fl →
        dlookup v2 DATAHUB_TRANSFORMED_SQL_TABLE_NAME = some (.str (fl s))
        ∧ dlookup v2 DERIVED_TABLE = some (.obj dfs)) := by
  induction fs generalizing td with
  | nil =>
    simp only [List.map_nil] at h
    unfold run_transformers at h
    refine ⟨fun _ => (Option.some_inj.mp h).symm, ?_⟩
    intro fl hfl
    exact absurd hfl (by simp)
  | cons f rest ih =>
    simp only [List.map_cons] at h
    unfold run_transformers at h
    simp only [transform_step_both f td dfs s hstn hdt hsql hT2 hs] at h
    have hstn2 : (dlookup (jmergeFields td
        [(DATAHUB_TRANSFORMED_SQL_TABLE_NAME, JVal.str (f s))])
        SQL_TABLE_NAME).isSome = true := by
      rw [dlookup_jmergeFields_notin _ _ _ (dlookup_single_ne _ _ _ (by decide))]
      exact hstn
    have hdt2 : dlookup (jmergeFields td
        [(DATAHUB_TRANSFORMED_SQL_TABLE_NAME, JVal.str (f s))]) DERIVED_TABLE
        = some (.obj dfs) := by
      rw [dlookup_jmergeFields_notin _ _ _ (dlookup_single_ne _ _ _ (by decide))]
      exact hdt
    obtain ⟨hn, hl⟩ := ih _ hstn2 hdt2 h
    refine ⟨fun habs => absurd habs (by simp), ?_⟩
    intro fl hfl
    cases rest with
    | nil =>
      have hv2 := hn rfl
      subst hv2
      simp only [List.getLast?_cons, List.getLast?_nil, Option.getD_none] at hfl
      cases hfl
      exact ⟨dlookup_jmergeFields_single_str _ _ _, hdt2⟩
    | cons r rs =>
      rw [List.getLast?_cons_cons] at hfl
      exact hl fl hfl

/-- Running the stages over a view whose only SQL-bearing location is
`sql_table_name`: the stages chain, each reading the previous transformed
value. -/
theorem run_transformers_stn (fs : List (String → String)) (td v2 : Dict)
    (cur : String) (hdtn : dlookup td DERIVED_TABLE = none)
    (hstn : (dlookup td SQL_TABLE_NAME).isSome = true)
    (hvtt : transformer_vtt1 td = some (.str cur))
    (hne : ∀ f ∈ fs, ∀ x : String, x ≠ "" → f x ≠ "")
    (hc : cur ≠ "")
    (h : run_transformers (fs.map strStage) td = some v2) :
    (fs = [] → v2 = td)
    ∧ (fs ≠ [] →
        dlookup v2 DATAHUB_TRANSFORMED_SQL_TABLE_NAME
          = some (.str (foldStrFns fs cur))
        ∧ dlookup v2 DERIVED_TABLE = none) := by
  induction fs generalizing td cur with
  | nil =>
    simp only [List.map_nil] at h
    unfold run_transformers at h
    exact ⟨fun _ => (Option.some_inj.mp h).symm, fun habs => absurd rfl habs⟩
  | cons f rest ih =>
    simp only [List.map_cons] at h
    unfold run_transformers at h
    simp only [transform_step_stn f td cur hdtn hstn hvtt hc] at h
    obtain ⟨orig, horig⟩ := Option.isSome_iff_exists.mp hstn
    have hdtn2 : dlookup (jmergeFields td
        [(DATAHUB_TRANSFORMED_SQL_TABLE_NAME, JVal.str (f cur))]) DERIVED_TABLE
        = none := by
      rw [dlookup_jmergeFields_notin _ _ _ (dlookup_single_ne _ _ _ (by decide))]
      exact hdtn
    have hstn2 : (dlookup (jmergeFields td
        [(DATAHUB_TRANSFORMED_SQL_TABLE_NAME, JVal.str (f cur))])
        SQL_TABLE_NAME).isSome = true := by
      rw [dlookup_jmergeFields_notin _ _ _ (dlookup_single_ne _ _ _ (by decide))]
      exact hstn
    have hvtt2 : transformer_vtt1 (jmergeFields td
        [(DATAHUB_TRANSFORMED_SQL_TABLE_NAME, JVal.str (f cur))])
        = some (.str (f cur)) := by
      unfold transformer_vtt1
      rw [dlookup_jmergeFields_notin _ _ _ (dlookup_single_ne _ _ _ (by decide)),
        horig, dlookup_jmergeFields_single_str]
    have hne2 : ∀ g ∈ rest, ∀ x : String, x ≠ "" → g x ≠ "" :=
      fun g hg => hne g (List.mem_cons_of_mem f hg)
    have hc2 : f cur ≠ "" := hne f (List.mem_cons_self f rest) cur hc
    obtain ⟨hn, hl⟩ := ih _ _ hdtn2 hstn2 hvtt2 hne2 hc2 h
    refine ⟨fun habs => absurd habs (by simp), fun _ => ?_⟩
    cases rest with
    | nil =>
      have hv2 := hn rfl
      subst hv2
      exact ⟨dlookup_jmergeFields_single_str _ _ _, hdtn2⟩
    | cons r rs =>
      have hres := hl (by simp)
      exact ⟨hres.1, hres.2⟩

/-- Running the stages over a view whose only SQL-bearing location is the
derived-table sql: the stages chain through the transformed derived key;
the original sql value is untouched. -/
theorem run_transformers_derived (fs : List (String → String)) (td v2 dfs : Dict)
    (s0 cur : String) (hstn : dlookup td SQL_TABLE_NAME = none)
    (hdt : dlookup td DERIVED_TABLE = some (.obj dfs))
    (hsql : dlookup dfs SQL = some (.str s0))
    (hcur : dlookup dfs DATAHUB_TRANSFORMED_SQL = some (.str cur)
            ∨ (dlookup dfs DATAHUB_TRANSFORMED_SQL = none ∧ cur = s0))
    (hne : ∀ f ∈ fs, ∀ x : String, x ≠ "" → f x ≠ "")
    (hc : cur ≠ "")
    (h : run_transformers (fs.map strStage) td = some v2) :
    (fs = [] → v2 = td)
    ∧ (fs ≠ [] →
        derivedTransformedSqlValue v2 = some (.str (foldStrFns fs cur))
        ∧ derivedSqlValue v2 = some (.str s0)
        ∧ dlookup v2 SQL_TABLE_NAME = none) := by
  induction fs generalizing td dfs cur with
  | nil =>
    simp only [List.map_nil] at h
    unfold run_transformers at h
    exact ⟨fun _ => (Option.some_inj.mp h).symm, fun habs => absurd rfl habs⟩
  | cons f rest ih =>
    simp only [List.map_cons] at h
    unfold run_transformers at h
    simp only [transform_step_derived f td dfs s0 cur hstn hdt hsql hcur hc] at h
    have hdt2 : dlookup (jmergeFields td
        [(DERIVED_TABLE, .obj [(DATAHUB_TRANSFORMED_SQL, JVal.str (f cur))])])
        DERIVED_TABLE
        = some (.obj (jmergeFields dfs
            [(DATAHUB_TRANSFORMED_SQL, JVal.str (f cur))])) :=
      dlookup_jmergeFields_single_obj _ _ _ _ hdt
    have hstn2 : dlookup (jmergeFields td
        [(DERIVED_TABLE, .obj [(DATAHUB_TRANSFORMED_SQL, JVal.str (f cur))])])
        SQL_TABLE_NAME = none := by
      rw [dlookup_jmergeFields_notin _ _ _ (dlookup_single_ne _ _ _ (by decide))]
      exact hstn
    have hsql2 : dlookup (jmergeFields dfs
        [(DATAHUB_TRANSFORMED_SQL, JVal.str (f cur))]) SQL
        = some (.str s0) := by
      rw [dlookup_jmergeFields_notin _ _ _ (dlookup_single_ne _ _ _ (by decide))]
      exact hsql
    have hcur2 : dlookup (jmergeFields dfs
        [(DATAHUB_TRANSFORMED_SQL, JVal.str (f cur))]) DATAHUB_TRANSFORMED_SQL
        = some (.str (f cur))
        ∨ (dlookup (jmergeFields dfs
            [(DATAHUB_TRANSFORMED_SQL, JVal.str (f cur))]) DATAHUB_TRANSFORMED_SQL
          = none ∧ f cur = s0) :=
      Or.inl (dlookup_jmergeFields_single_str _ _ _)
    have hne2 : ∀ g ∈ rest, ∀ x : String, x ≠ "" → g x ≠ "" :=
      fun g hg => hne g (List.mem_cons_of_mem f hg)
    have hc2 : f cur ≠ "" := hne f (List.mem_cons_self f rest) cur hc
    obtain ⟨hn, hl⟩ := ih _ _ _ hstn2 hdt2 hsql2 hcur2 hne2 hc2 h
    refine ⟨fun habs => absurd habs (by simp), fun _ => ?_⟩
    cases rest with
    | nil =>
      have hv2 := hn rfl
      subst hv2
      refine ⟨?_, ?_, hstn2⟩
      · unfold derivedTransformedSqlValue
        rw [hdt2]
        exact dlookup_jmergeFields_single_str _ _ _
      · unfold derivedSqlValue
        rw [hdt2]
        exact hsql2
    | cons r rs =>
      exact hl (by simp)

/-- C7 amended: stages that transform string values behave per location as
follows.  When exactly one SQL-bearing location is present, the stages
chain on that location and the result lands under its own derived key:
the transformed sql-table-name key holds the composed transforms of the
original sql-table-name, or the transformed derived-sql key holds the
composed transforms of the original derived sql.  When both locations are
present, every stage reads the raw derived-table sql (the derived
transformed key is never written), stores its transform under the
transformed sql-table-name key, and the final value of that key is the
last stage alone applied to the raw derived sql — not the transform of
the original sql-table-name.  An absent location is skipped. -/
theorem claim_C7_per_location_amended (fs : List (String → String))
    (v v2 : Dict) (h : transformed_lookml_view (fs.map strStage) v = some v2) :
    (∀ tn : String, dlookup v DERIVED_TABLE = none →
      dlookup v SQL_TABLE_NAME = some (.str tn) →
      dlookup v DATAHUB_TRANSFORMED_SQL_TABLE_NAME = none →
      (∀ f ∈ fs, ∀ x : String, x ≠ "" → f x ≠ "") → tn ≠ "" → fs ≠ [] →
      dlookup v2 DATAHUB_TRANSFORMED_SQL_TABLE_NAME
        = some (.str (foldStrFns fs tn)))
    ∧ (∀ (dfs : Dict) (s0 : String), dlookup v SQL_TABLE_NAME = none →
      dlookup v DERIVED_TABLE = some (.obj dfs) →
      dlookup dfs SQL = some (.str s0) →
      dlookup dfs DATAHUB_TRANSFORMED_SQL = none →
      (∀ f ∈ fs, ∀ x : String, x ≠ "" → f x ≠ "") → s0 ≠ "" → fs ≠ [] →
      derivedTransformedSqlValue v2 = some (.str (foldStrFns fs s0))
        ∧ derivedSqlValue v2 = some (.str s0))
    ∧ (∀ (dfs : Dict) (s : String),
      (dlookup v SQL_TABLE_NAME).isSome = true →
      dlookup v DERIVED_TABLE = some (.obj dfs) →
      dlookup dfs SQL = some (.str s) →
      dlookup dfs DATAHUB_TRANSFORMED_SQL = none → s ≠ "" →
      ∀ fl, fs.getLast? = some fl →
      dlookup v2 DATAHUB_TRANSFORMED_SQL_TABLE_NAME = some (.str (fl s))
        ∧ derivedTransformedSqlValue v2 = none) := by
  unfold transformed_lookml_view at h
  split at h
  · exact absurd h (by simp)
  · refine ⟨?_, ?_, ?_⟩
    · intro tn hdtn hstn hT1 hne htn hfs
      have hvtt : transformer_vtt1 v = some (.str tn) := by
        unfold transformer_vtt1
        rw [hstn, hT1]
      have hsome : (dlookup v SQL_TABLE_NAME).isSome = true := by
        rw [hstn]
        rfl
      exact ((run_transformers_stn fs _ _ tn hdtn hsome hvtt hne htn h).2 hfs).1
    · intro dfs s0 hstn hdt hsql hT2 hne hs0 hfs
      have hres := (run_transformers_derived fs _ _ dfs s0 s0 hstn hdt hsql
        (Or.inr ⟨hT2, rfl⟩) hne hs0 h).2 hfs
      exact ⟨hres.1, hres.2.1⟩
    · intro dfs s hstn hdt hsql hT2 hs fl hfl
      have hres := (run_transformers_both fs _ _ dfs s hstn hdt hsql hT2 hs h).2
        fl hfl
      refine ⟨hres.1, ?_⟩
      unfold derivedTransformedSqlValue
      rw [hres.2]
      exact hT2

/-- Witness for C7 amended: the both-locations case with one stage, and
the single-location case with two chained stages. -/
theorem claim_C7_per_location_amended_witness :
    (dlookup [(NAME, JVal.str "v"), (SQL_TABLE_NAME, JVal.str "t"),
        (DERIVED_TABLE, JVal.obj [(SQL, JVal.str "s")]),
        (DATAHUB_TRANSFORMED_SQL_TABLE_NAME, JVal.str "s!")]
        DATAHUB_TRANSFORMED_SQL_TABLE_NAME = some (JVal.str ("s" ++ "!"))
      ∧ derivedTransformedSqlValue [(NAME, JVal.str "v"),
          (SQL_TABLE_NAME, JVal.str "t"),
          (DERIVED_TABLE, JVal.obj [(SQL, JVal.str "s")]),
          (DATAHUB_TRANSFORMED_SQL_TABLE_NAME, JVal.str "s!")] = none)
    ∧ dlookup [(NAME, JVal.str "v"), (SQL_TABLE_NAME, JVal.str "t"),
        (DATAHUB_TRANSFORMED_SQL_TABLE_NAME, JVal.str "t!?")]
        DATAHUB_TRANSFORMED_SQL_TABLE_NAME
      = some (JVal.str (foldStrFns [fun x => x ++ "!", fun x => x ++ "?"] "t")) := by
  constructor
  · exact (claim_C7_per_location_amended [fun x => x ++ "!"]
      [(NAME, JVal.str "v"), (SQL_TABLE_NAME, JVal.str "t"),
        (DERIVED_TABLE, JVal.obj [(SQL, JVal.str "s")])]
      [(NAME, JVal.str "v"), (SQL_TABLE_NAME, JVal.str "t"),
        (DERIVED_TABLE, JVal.obj [(SQL, JVal.str "s")]),
        (DATAHUB_TRANSFORMED_SQL_TABLE_NAME, JVal.str "s!")] rfl).2.2
      [(SQL, JVal.str "s")] "s" rfl rfl rfl rfl (by decide)
      (fun x => x ++ "!") rfl
  · refine (claim_C7_per_location_amended
      [fun x => x ++ "!", fun x => x ++ "?"]
      [(NAME, JVal.str "v"), (SQL_TABLE_NAME, JVal.str "t")]
      [(NAME, JVal.str "v"), (SQL_TABLE_NAME, JVal.str "t"),
        (DATAHUB_TRANSFORMED_SQL_TABLE_NAME, JVal.str "t!?")] rfl).1
      "t" rfl rfl rfl ?_ (by decide) (by simp)
    intro f hf x hx
    have hlen : (f x).length = x.length + 1 := by
      rcases List.mem_cons.mp hf with hf1 | hf1
      · subst hf1
        simp only [String.length_append]
        rfl
      · rcases List.mem_cons.mp hf1 with hf2 | hf2
        · subst hf2
          simp only [String.length_append]
          rfl
        · exact absurd hf2 (by simp)
    intro he
    rw [he] at hlen
    have : x.length + 1 = 0 := hlen.symm
    omega

/-! ### Lemmas on the special-variable dictionary augmentation (C8) -/

theorem segsIsPfx_cons_same (k : String) (a b : List String) :
    segsIsPfx (k :: a) (k :: b) = segsIsPfx a b := by
  simp [segsIsPfx]

theorem splitOnChar_ne_nil (sep : Char) (cs : List Char) :
    splitOnChar sep cs ≠ [] := by
  cases cs with
  | nil => simp [splitOnChar]
  | cons c rest =>
    simp only [splitOnChar]
    split
    · simp
    · split <;> simp

theorem strSplitDot_ne_nil (s : String) : strSplitDot s ≠ [] := by
  unfold strSplitDot
  intro h
  exact splitOnChar_ne_nil '.' s.data (List.map_eq_nil_iff.mp h)

theorem pathInsertable_nil_dict (ps : List String) :
    pathInsertable ps ([] : Dict) = true := by
  match ps with
  | [] => rfl
  | [k] => rfl
  | k :: r :: rest => simp [pathInsertable, dlookup]

theorem liquidLookup_nil_dict (ps : List String) :
    liquidLookup ([] : Dict) ps = none := by
  match ps with
  | [] => rfl
  | [k] => rfl
  | k :: r :: rest => simp [liquidLookup, dlookup]

/-- A successful walk exists whenever every value already present along
the proper prefixes of the path is a dict. -/
theorem insert_succeeds : ∀ (ps : List String) (d : Dict),
    pathInsertable ps d = true → ∃ d2, insertSpecialPath ps d = some d2
  | [], d, _ => ⟨d, rfl⟩
  | [k], d, _ => by
    unfold insertSpecialPath
    split
    · exact ⟨d, rfl⟩
    · exact ⟨_, rfl⟩
  | k :: r :: rest, d, h => by
    unfold insertSpecialPath
    unfold pathInsertable at h
    split at h
    · next heq =>
      obtain ⟨sub, hsub⟩ := insert_succeeds (r :: rest) [] (pathInsertable_nil_dict _)
      simp only [heq, hsub]
      exact ⟨_, rfl⟩
    · next sub heq =>
      obtain ⟨sub2, hsub2⟩ := insert_succeeds (r :: rest) sub h
      simp only [heq, hsub2]
      exact ⟨_, rfl⟩
    · next s heq => exact absurd h (by simp)
    · next b heq => exact absurd h (by simp)

/-- A successful insertion never changes an existing non-dict value,
anywhere in the dictionary. -/
theorem insert_preserves_leaf : ∀ (ps : List String) (d d2 : Dict),
    insertSpecialPath ps d = some d2 →
    ∀ (qs : List String) (v : JVal), (∀ fs2, v ≠ .obj fs2) →
    liquidLookup d qs = some v → liquidLookup d2 qs = some v
  | [], _, _, h, _, _, _, hq => (Option.some_inj.mp h) ▸ hq
  | [k], d, d2, h, qs, v, hv, hq => by
    unfold insertSpecialPath at h
    split at h
    · exact (Option.some_inj.mp h) ▸ hq
    · next hpres =>
      have hd2 : d2 = d ++ [(k, .bool true)] := (Option.some_inj.mp h).symm
      subst hd2
      have hknone : dlookup d k = none := by
        cases hdk : dlookup d k
        · rfl
        · rw [hdk] at hpres
          simp at hpres
      cases qs with
      | nil => simp [liquidLookup] at hq
      | cons k1 qtail =>
        cases qtail with
        | nil =>
          have hne : k1 ≠ k := by
            intro he
            subst he
            rw [show liquidLookup d [k1] = dlookup d k1 from rfl, hknone] at hq
            cases hq
          show dlookup (d ++ [(k, .bool true)]) k1 = some v
          rw [dlookup_append_single_ne _ _ _ _ hne]
          exact hq
        | cons r1 rtail =>
          simp only [liquidLookup] at hq ⊢
          cases hdk1 : dlookup d k1 with
          | none => simp [hdk1] at hq
          | some w =>
            have hne : k1 ≠ k := by
              intro he
              subst he
              rw [hknone] at hdk1
              cases hdk1
            rw [dlookup_append_single_ne _ _ _ _ hne]
            cases w with
            | obj sub =>
              simp only [hdk1] at hq ⊢
              exact hq
            | str s1 => simp [hdk1] at hq
            | bool b1 => simp [hdk1] at hq
  | k :: r :: rest, d, d2, h, qs, v, hv, hq => by
    unfold insertSpecialPath at h
    split at h
    · next heq =>
      split at h
      · next sub hsub =>
        have hd2 : d2 = d ++ [(k, .obj sub)] := (Option.some_inj.mp h).symm
        subst hd2
        cases qs with
        | nil => simp [liquidLookup] at hq
        | cons k1 qtail =>
          cases qtail with
          | nil =>
            have hne : k1 ≠ k := by
              intro he
              subst he
              rw [show liquidLookup d [k1] = dlookup d k1 from rfl, heq] at hq
              cases hq
            show dlookup (d ++ [(k, .obj sub)]) k1 = some v
            rw [dlookup_append_single_ne _ _ _ _ hne]
            exact hq
          | cons r1 rtail =>
            simp only [liquidLookup] at hq ⊢
            cases hdk1 : dlookup d k1 with
            | none => simp [hdk1] at hq
            | some w =>
              have hne : k1 ≠ k := by
                intro he
                subst he
                rw [heq] at hdk1
                cases hdk1
              rw [dlookup_append_single_ne _ _ _ _ hne]
              cases w with
              | obj sub1 =>
                simp only [hdk1] at hq ⊢
                exact hq
              | str s1 => simp [hdk1] at hq
              | bool b1 => simp [hdk1] at hq
      · exact absurd h (by simp)
    · next sub heq =>
      split at h
      · next sub2 hsub2 =>
        have hd2 : d2 = dupdate d k (.obj sub2) := (Option.some_inj.mp h).symm
        subst hd2
        cases qs with
        | nil => simp [liquidLookup] at hq
        | cons k1 qtail =>
          cases qtail with
          | nil =>
            by_cases hne : k1 = k
            · subst hne
              rw [show liquidLookup d [k1] = dlookup d k1 from rfl, heq] at hq
              exact absurd (Option.some_inj.mp hq).symm (hv sub)
            · show dlookup (dupdate d k (.obj sub2)) k1 = some v
              rw [dlookup_dupdate_ne _ _ _ _ hne]
              exact hq
          | cons r1 rtail =>
            simp only [liquidLookup] at hq ⊢
            by_cases hne : k1 = k
            · subst hne
              rw [dlookup_dupdate_self _ _ _ _ heq]
              simp only [heq] at hq
              exact insert_preserves_leaf (r :: rest) sub sub2 hsub2 _ v hv hq
            · rw [dlookup_dupdate_ne _ _ _ _ hne]
              cases hdk1 : dlookup d k1 with
              | none => simp [hdk1] at hq
              | some w =>
                cases w with
                | obj sub1 =>
                  simp only [hdk1] at hq ⊢
                  exact hq
                | str s1 => simp [hdk1] at hq
                | bool b1 => simp [hdk1] at hq
      · exact absurd h (by simp)
    · next s1 heq =>
      split at h
      · split at h
        · exact (Option.some_inj.mp h) ▸ hq
        · exact absurd h (by simp)
      · exact absurd h (by simp)
    · exact absurd h (by simp)

/-- A successful, walkable insertion of an unbound path binds its leaf to
`True`. -/
theorem insert_sets_true : ∀ (ps : List String) (d d2 : Dict),
    insertSpecialPath ps d = some d2 → pathInsertable ps d = true →
    liquidLookup d ps = none → ps ≠ [] →
    liquidLookup d2 ps = some (.bool true)
  | [], _, _, _, _, _, hne => absurd rfl hne
  | [k], d, d2, h, _, hq, _ => by
    unfold insertSpecialPath at h
    have hknone : dlookup d k = none := hq
    rw [hknone] at h
    simp only [Option.isSome_none, Bool.false_eq_true, if_false] at h
    have hd2 : d2 = d ++ [(k, .bool true)] := (Option.some_inj.mp h).symm
    subst hd2
    show dlookup (d ++ [(k, .bool true)]) k = some (.bool true)
    exact dlookup_append_single_self _ _ _ hknone
  | k :: r :: rest, d, d2, h, hins, hq, _ => by
    unfold insertSpecialPath at h
    unfold pathInsertable at hins
    split at h
    · next heq =>
      split at h
      · next sub hsub =>
        have hd2 : d2 = d ++ [(k, .obj sub)] := (Option.some_inj.mp h).symm
        subst hd2
        simp only [liquidLookup]
        rw [dlookup_append_single_self _ _ _ heq]
        exact insert_sets_true (r :: rest) [] sub hsub
          (pathInsertable_nil_dict _) (liquidLookup_nil_dict _) (by simp)
      · exact absurd h (by simp)
    · next sub heq =>
      split at h
      · next sub2 hsub2 =>
        have hd2 : d2 = dupdate d k (.obj sub2) := (Option.some_inj.mp h).symm
        subst hd2
        rw [heq] at hins
        simp only [liquidLookup] at hq ⊢
        simp only [heq] at hq
        rw [dlookup_dupdate_self _ _ _ _ heq]
        exact insert_sets_true (r :: rest) sub sub2 hsub2 hins hq (by simp)
      · exact absurd h (by simp)
    · next s1 heq =>
      rw [heq] at hins
      exact absurd hins (by simp)
    · next b1 heq =>
      rw [heq] at hins
      exact absurd hins (by simp)

/-- A successful insertion leaves the lookup of every path that is not
prefix-comparable with the inserted one unchanged. -/
theorem insert_local : ∀ (qs : List String) (d d2 : Dict),
    insertSpecialPath qs d = some d2 →
    ∀ ps, segsIsPfx qs ps = false → segsIsPfx ps qs = false →
    liquidLookup d2 ps = liquidLookup d ps
  | [], _, _, h, _, _, _ => by rw [← Option.some_inj.mp h]
  | [k], d, d2, h, ps, hp1, hp2 => by
    unfold insertSpecialPath at h
    split at h
    · rw [← Option.some_inj.mp h]
    · next hpres =>
      have hd2 : d2 = d ++ [(k, .bool true)] := (Option.some_inj.mp h).symm
      subst hd2
      cases ps with
      | nil => simp [liquidLookup]
      | cons k1 qtail =>
        have hne : k1 ≠ k := by
          intro he
          subst he
          simp [segsIsPfx] at hp1
        cases qtail with
        | nil =>
          show dlookup (d ++ [(k, .bool true)]) k1 = dlookup d k1
          exact dlookup_append_single_ne _ _ _ _ hne
        | cons r1 rtail =>
          simp only [liquidLookup]
          rw [dlookup_append_single_ne _ _ _ _ hne]
  | k :: r :: rest, d, d2, h, ps, hp1, hp2 => by
    unfold insertSpecialPath at h
    split at h
    · next heq =>
      split at h
      · next sub hsub =>
        have hd2 : d2 = d ++ [(k, .obj sub)] := (Option.some_inj.mp h).symm
        subst hd2
        cases ps with
        | nil => simp [liquidLookup]
        | cons k1 qtail =>
          by_cases hne : k1 = k
          · subst hne
            cases qtail with
            | nil => simp [segsIsPfx] at hp2
            | cons r1 rtail =>
              rw [segsIsPfx_cons_same] at hp1 hp2
              simp only [liquidLookup, dlookup_append_single_self _ _ _ heq, heq]
              rw [insert_local (r :: rest) [] sub hsub _ hp1 hp2,
                liquidLookup_nil_dict]
          · cases qtail with
            | nil =>
              show dlookup (d ++ [(k, .obj sub)]) k1 = dlookup d k1
              exact dlookup_append_single_ne _ _ _ _ hne
            | cons r1 rtail =>
              simp only [liquidLookup]
              rw [dlookup_append_single_ne _ _ _ _ hne]
      · exact absurd h (by simp)
    · next sub heq =>
      split at h
      · next sub2 hsub2 =>
        have hd2 : d2 = dupdate d k (.obj sub2) := (Option.some_inj.mp h).symm
        subst hd2
        cases ps with
        | nil => simp [liquidLookup]
        | cons k1 qtail =>
          by_cases hne : k1 = k
          · subst hne
            cases qtail with
            | nil => simp [segsIsPfx] at hp2
            | cons r1 rtail =>
              rw [segsIsPfx_cons_same] at hp1 hp2
              simp only [liquidLookup, dlookup_dupdate_self _ _ _ _ heq, heq]
              rw [insert_local (r :: rest) sub sub2 hsub2 _ hp1 hp2]
          · cases qtail with
            | nil =>
              show dlookup (dupdate d k (.obj sub2)) k1 = dlookup d k1
              exact dlookup_dupdate_ne _ _ _ _ hne
            | cons r1 rtail =>
              simp only [liquidLookup]
              rw [dlookup_dupdate_ne _ _ _ _ hne]
      · exact absurd h (by simp)
    · next s1 heq =>
      split at h
      · split at h
        · rw [← Option.some_inj.mp h]
        · exact absurd h (by simp)
      · exact absurd h (by simp)
    · exact absurd h (by simp)

/-- A successful insertion keeps every path that the inserted one is not a
prefix of walkable. -/
theorem insert_preserves_insertable : ∀ (qs : List String) (d d2 : Dict),
    insertSpecialPath qs d = some d2 →
    ∀ ps, pathInsertable ps d = true → segsIsPfx qs ps = false →
    pathInsertable ps d2 = true
  | [], _, _, h, _, hp, _ => by
    rw [← Option.some_inj.mp h]
    exact hp
  | [k], d, d2, h, ps, hp, hq1 => by
    unfold insertSpecialPath at h
    split at h
    · rw [← Option.some_inj.mp h]
      exact hp
    · have hd2 : d2 = d ++ [(k, .bool true)] := (Option.some_inj.mp h).symm
      subst hd2
      match ps with
      | [] => rfl
      | [x] => rfl
      | k1 :: r1 :: rtail =>
        have hne : k1 ≠ k := by
          intro he
          subst he
          simp [segsIsPfx] at hq1
        unfold pathInsertable at hp ⊢
        rw [dlookup_append_single_ne _ _ _ _ hne]
        exact hp
  | k :: r :: rest, d, d2, h, ps, hp, hq1 => by
    unfold insertSpecialPath at h
    split at h
    · next heq =>
      split at h
      · next sub hsub =>
        have hd2 : d2 = d ++ [(k, .obj sub)] := (Option.some_inj.mp h).symm
        subst hd2
        match ps with
        | [] => rfl
        | [x] => rfl
        | k1 :: r1 :: rtail =>
          by_cases hne : k1 = k
          · subst hne
            rw [segsIsPfx_cons_same] at hq1
            simp only [pathInsertable, dlookup_append_single_self _ _ _ heq]
            exact insert_preserves_insertable (r :: rest) [] sub hsub _
              (pathInsertable_nil_dict _) hq1
          · unfold pathInsertable at hp ⊢
            rw [dlookup_append_single_ne _ _ _ _ hne]
            exact hp
      · exact absurd h (by simp)
    · next sub heq =>
      split at h
      · next sub2 hsub2 =>
        have hd2 : d2 = dupdate d k (.obj sub2) := (Option.some_inj.mp h).symm
        subst hd2
        match ps with
        | [] => rfl
        | [x] => rfl
        | k1 :: r1 :: rtail =>
          by_cases hne : k1 = k
          · subst hne
            rw [segsIsPfx_cons_same] at hq1
            simp only [pathInsertable, heq] at hp
            simp only [pathInsertable, dlookup_dupdate_self _ _ _ _ heq]
            exact insert_preserves_insertable (r :: rest) sub sub2 hsub2 _ hp hq1
          · unfold pathInsertable at hp ⊢
            rw [dlookup_dupdate_ne _ _ _ _ hne]
            exact hp
      · exact absurd h (by simp)
    · next s1 heq =>
      split at h
      · split at h
        · rw [← Option.some_inj.mp h]
          exact hp
        · exact absurd h (by simp)
      · exact absurd h (by simp)
    · exact absurd h (by simp)

/-- Folding the insertion over a prefix-free, walkable set of paths
succeeds, binds every previously unbound path to `True`, and preserves
every existing non-dict entry. -/
theorem fold_insert_ok (V : List String) (d : Dict)
    (hins : ∀ p ∈ V, pathInsertable (strSplitDot p) d = true)
    (hpf : pathsPrefixFree (V.map strSplitDot) = true) :
    ∃ d2, create_new_liquid_variables_with_default V d = some d2
      ∧ (∀ p ∈ V, liquidLookup d (strSplitDot p) = none →
          liquidLookup d2 (strSplitDot p) = some (.bool true))
      ∧ (∀ qs v, (∀ fs2, v ≠ .obj fs2) → liquidLookup d qs = some v →
          liquidLookup d2 qs = some v) := by
  induction V generalizing d with
  | nil => exact ⟨d, rfl, by simp, fun _ _ _ hq => hq⟩
  | cons p V2 ih =>
    simp only [List.map_cons, pathsPrefixFree, Bool.and_eq_true,
      List.all_eq_true] at hpf
    obtain ⟨hpf1, hpf2⟩ := hpf
    have hpfx : ∀ q ∈ V2, segsIsPfx (strSplitDot p) (strSplitDot q) = false
        ∧ segsIsPfx (strSplitDot q) (strSplitDot p) = false := by
      intro q hq
      have := hpf1 (strSplitDot q) (List.mem_map_of_mem _ hq)
      simp only [Bool.and_eq_true, Bool.not_eq_true'] at this
      exact this
    obtain ⟨d1, hd1⟩ := insert_succeeds _ _ (hins p (List.mem_cons_self _ _))
    have hstep : create_new_liquid_variables_with_default (p :: V2) d
        = create_new_liquid_variables_with_default V2 d1 := by
      unfold create_new_liquid_variables_with_default
      simp [List.foldl_cons, hd1]
    have hins2 : ∀ q ∈ V2, pathInsertable (strSplitDot q) d1 = true :=
      fun q hq => insert_preserves_insertable _ _ _ hd1 _
        (hins q (List.mem_cons_of_mem _ hq)) (hpfx q hq).1
    obtain ⟨d2, hd2, htrue2, hpres2⟩ := ih d1 hins2 hpf2
    refine ⟨d2, hstep ▸ hd2, ?_, ?_⟩
    · intro q hq hnone
      rcases List.mem_cons.mp hq with hq0 | hq0
      · subst hq0
        have h1 : liquidLookup d1 (strSplitDot q) = some (.bool true) :=
          insert_sets_true _ _ _ hd1 (hins q (List.mem_cons_self _ _)) hnone
            (strSplitDot_ne_nil q)
        exact hpres2 _ _ (fun fs2 => by simp) h1
      · have hloc := insert_local _ _ _ hd1 (strSplitDot q)
          (hpfx q hq0).1 (hpfx q hq0).2
        exact htrue2 q hq0 (hloc.trans hnone)
    · intro qs v hv hq
      exact hpres2 qs v hv (insert_preserves_leaf _ _ _ hd1 qs v hv hq)

/-- `SpecialVariable.liquid_variable_with_default` under the walkability
and prefix-freeness provisos. -/
theorem liquid_variable_with_default_ok (d : Dict) (text : String)
    (hins : ∀ p ∈ extractSpecialVariables text,
      pathInsertable (strSplitDot p) d = true)
    (hpf : pathsPrefixFree
      ((extractSpecialVariables text).map strSplitDot) = true) :
    ∃ d2, liquid_variable_with_default d text = some d2
      ∧ (∀ p ∈ extractSpecialVariables text,
          liquidLookup d (strSplitDot p) = none →
          liquidLookup d2 (strSplitDot p) = some (.bool true))
      ∧ (∀ qs v, (∀ fs2, v ≠ .obj fs2) → liquidLookup d qs = some v →
          liquidLookup d2 qs = some v) := by
  unfold liquid_variable_with_default
  by_cases he : (extractSpecialVariables text).isEmpty
  · refine ⟨d, by simp [he], ?_, fun _ _ _ hq => hq⟩
    intro p hp
    rw [List.isEmpty_iff.mp he] at hp
    exact absurd hp (by simp)
  · obtain ⟨d2, hd2, ht, hp⟩ := fold_insert_ok _ d hins hpf
    exact ⟨d2, by simp [he, hd2], ht, hp⟩

/-- C8 counterexample: the claim quantifies over every variable
dictionary, but when an intermediate key of a special path is already
bound to a non-dict value (here `a` bound to a boolean) the insertion
loop raises an uncaught `TypeError` — `resolve_liquid_variable` raises
instead of rendering the path as true. -/
theorem claim_C8_liquid_defaults_counterexample :
    resolve_liquid_variable [.var ["a", "b", "_is_selected"]]
      [("a", JVal.bool true)] = none := rfl

/-- C8 amended: provided every binding already present along the proper
prefixes of each special path found in the text is a nested mapping, and
no found special path is a prefix of another, liquid resolution renders
through the augmented dictionary: every special path not bound in the
dictionary is bound to boolean true (and renders as `true`), every
existing non-mapping entry is preserved (never overwritten), and an
ordinary variable unbound in the augmented dictionary renders as the
literal text `NULL`. -/
theorem claim_C8_liquid_defaults_amended (t : List LiquidElem) (d : Dict)
    (hins : ∀ p ∈ extractSpecialVariables (templateText t),
      pathInsertable (strSplitDot p) d = true)
    (hpf : pathsPrefixFree
      ((extractSpecialVariables (templateText t)).map strSplitDot) = true) :
    ∃ d2, liquid_variable_with_default d (templateText t) = some d2
      ∧ resolve_liquid_variable t d = some (renderTemplate t d2)
      ∧ (∀ p ∈ extractSpecialVariables (templateText t),
          liquidLookup d (strSplitDot p) = none →
          liquidLookup d2 (strSplitDot p) = some (.bool true)
          ∧ renderTemplate [.var (strSplitDot p)] d2 = "true")
      ∧ (∀ qs v, (∀ fs2, v ≠ .obj fs2) → liquidLookup d qs = some v →
          liquidLookup d2 qs = some v)
      ∧ (∀ p, liquidLookup d2 p = none →
          renderTemplate [.var p] d2 = "NULL") := by
  obtain ⟨d2, hd2, ht, hp⟩ :=
    liquid_variable_with_default_ok d (templateText t) hins hpf
  refine ⟨d2, hd2, ?_, ?_, hp, ?_⟩
  · unfold resolve_liquid_variable
    rw [hd2]
  · intro p hp2 hnone
    have h1 := ht p hp2 hnone
    refine ⟨h1, ?_⟩
    simp [renderTemplate, h1, jvalRender, String.join]
  · intro p hnone
    simp [renderTemplate, hnone, String.join]

/-- Witness for C8 amended on a template with one ordinary unbound
variable and one special boolean variable, over the empty dictionary. -/
theorem claim_C8_liquid_defaults_amended_witness :
    resolve_liquid_variable
      [.lit "x = ", .var ["q"], .lit " AND ",
        .var ["vn", "f", "_is_selected"]] []
      = some "x = NULL AND true" := by
  obtain ⟨d2, hd2, hres, _, _, _⟩ :=
    claim_C8_liquid_defaults_amended
      [.lit "x = ", .var ["q"], .lit " AND ",
        .var ["vn", "f", "_is_selected"]] [] (by decide) (by decide)
  have hD : d2 = [("vn", JVal.obj [("f",
      JVal.obj [("_is_selected", JVal.bool true)])])] := by
    have hc : liquid_variable_with_default []
        (templateText [.lit "x = ", .var ["q"], .lit " AND ",
          .var ["vn", "f", "_is_selected"]])
        = some [("vn", JVal.obj [("f",
            JVal.obj [("_is_selected", JVal.bool true)])])] := rfl
    rw [hc] at hd2
    exact (Option.some_inj.mp hd2).symm
  rw [hres, hD]
  rfl
